import Mathlib

/-!
Shallow embedding of the rhai parser front end (src/parser.rs) and proofs
about the claims on it.

Conventions of the embedding:
  * `String` stands for the interned `ImmutableString` (interning is
    content-preserving, so the canonical handle is the string itself;
    the intern table is still threaded through the state faithfully).
  * Machine integers (`INT` = `i64`, `usize`, `u64` hashes) are `Int`/`Nat`
    with explicit range checks where the source behaviour depends on them
    (`i64::checked_neg`, the `usize` subtraction in the custom-syntax
    scope-delta adjustment).
  * `Token`, `Expr`, `Stmt`, `Dyn` and the helper predicates on them
    live in external modules of the repository (token.rs, ast.rs,
    dynamic.rs) that are not part of the given sources; they are modelled
    from the specification, restricted to the constructors the parser code
    under verification manipulates.
  * Rust panics (`unreachable!`, `unwrap` failures, arithmetic underflow)
    are modelled as a distinguished `Panic` parse error so that they stay
    observable.
  * The parser's mutual recursion is driven by an explicit fuel parameter;
    running out of fuel is the distinguished `Panic "fuel"` outcome, which
    never occurs on the concrete runs used by the theorems.
  * Feature flags are fixed to the default build (float / closure / module /
    object / index / function enabled, `unchecked` disabled), except that
    float support is a runtime flag `floatEnabled` of the engine model so
    that the `no_float` branch of unary minus stays statable.
-/

/-- Source position; the spec treats it as (line, column) or a sentinel
"none".  Claims never depend on its internal structure, so it is modelled
as an opaque-but-concrete `Nat` tag with `0` as the sentinel. -/
abbrev Position := Nat

/-- The sentinel "no position" (`Position::NONE`). -/
def Position.NONE : Position := 0

/-- Access mode of a scope-stack slot (dynamic.rs `AccessMode`). -/
inductive AccessMode where
  | ReadWrite
  | ReadOnly
deriving DecidableEq

/-- Model of the external `FLOAT` type: the parser only ever constructs
floats by casting an integer (`num as FLOAT`) or negating an existing
float, so the free algebra over those two operations is a faithful
observation model. -/
inductive FLOAT where
  | ofInt (i : Int)
  | neg (f : FLOAT)
deriving DecidableEq

/-- Identifier with its position (ast.rs `Ident`). -/
structure Ident where
  name : String
  pos : Position
deriving DecidableEq

/-- Namespace qualification path of a variable or call
(module.rs `NamespaceRef`): the `::`-separated qualifiers plus the
module-stack index filled in by `set_index`. -/
structure NamespaceRef where
  path : List Ident
  index : Option Nat
deriving DecidableEq

/-- Model of the runtime value type `Dynamic` (named `Dyn` here since Lean reserves `Dynamic`), restricted to the constant
kinds the parser extracts from literal expressions. -/
inductive Dyn where
  | Unit
  | Bool (b : Bool)
  | Int (i : Int)
  | Float (f : FLOAT)
  | Char (c : Char)
  | Str (s : String)
deriving DecidableEq

mutual
/-- Expression AST (ast.rs `Expr`), modelled from the data-model section of
the spec; `Box<BinaryExpr>` payloads are flattened into the two
sub-expressions. -/
inductive Expr where
  | Unit (pos : Position)
  | BoolConstant (b : Bool) (pos : Position)
  | IntegerConstant (i : Int) (pos : Position)
  | FloatConstant (f : FLOAT) (pos : Position)
  | CharConstant (c : Char) (pos : Position)
  | StringConstant (s : String) (pos : Position)
  | Array (items : List Expr) (pos : Position)
  | Map (items : List (Ident × Expr)) (pos : Position)
  | Variable (index : Option Nat) (ns : Option (Nat × NamespaceRef)) (ident : Ident)
  | Property (getter : String) (setter : String) (ident : Ident)
  | FnCall (name : String) (capture : Bool) (ns : Option NamespaceRef)
      (hash_script : Option Nat) (args : List Expr) (def_value : Option Dyn)
      (pos : Position)
  | FnPointer (name : String) (pos : Position)
  | Dot (lhs rhs : Expr) (pos : Position)
  | Index (lhs rhs : Expr) (pos : Position)
  | And (lhs rhs : Expr) (pos : Position)
  | Or (lhs rhs : Expr) (pos : Position)
  | In (lhs rhs : Expr) (pos : Position)
  | Custom (keywords : List Expr) (func : Nat) (tokens : List String) (pos : Position)
  | Stmt (stmts : List Stmt) (pos : Position)

/-- Statement AST (ast.rs `Stmt`), restricted to the statement kinds
producible from the modelled token set. -/
inductive Stmt where
  | Noop (pos : Position)
  | Expr (e : Expr)
  | Block (stmts : List Stmt) (pos : Position)
  | Switch (item : Expr) (table : List (Nat × Stmt)) (def_stmt : Option Stmt)
      (pos : Position)
  | Let (ident : Ident) (e : Option Expr) (is_export : Bool) (pos : Position)
  | Const (ident : Ident) (e : Option Expr) (is_export : Bool) (pos : Position)
  | Import (path : Expr) (alias_name : Option Ident) (pos : Position)
  | Assignment (lhs : Expr) (op : String) (rhs : Expr) (pos : Position)
  | Share (ident : Ident)
end

/-- Script-defined function record (ast.rs `ScriptFnDef`), with the fields
the parser fills in. -/
structure ScriptFnDef where
  name : String
  is_private : Bool
  params : List String
  externals : List String
  body : Stmt
  comments : List String

/-- Parse-error kinds (error.rs `ParseErrorType`), plus the lexer-error
variants the parser raises directly (`ImproperSymbol`, `UnexpectedInput`,
`MalformedNumber`) and a `Panic` constructor modelling Rust panics. -/
inductive ParseErrorType where
  | UnexpectedEOF
  | MissingToken (token : String) (context : String)
  | MalformedIndexExpr (msg : String)
  | MalformedCapture (msg : String)
  | PropertyExpected
  | VariableExpected
  | ExprExpected (what : String)
  | DuplicatedProperty (name : String)
  | DuplicatedSwitchCase
  | Reserved (name : String)
  | UnknownOperator (name : String)
  | LiteralTooLarge (kind : String) (max : Nat)
  | ExprTooDeep
  | AssignmentToConstant (name : String)
  | AssignmentToInvalidLHS (name : String)
  | FnDuplicatedParam (fn_name : String) (param : String)
  | ImproperSymbol (sym : String) (msg : String)
  | UnexpectedInput (sym : String)
  | MalformedNumber (text : String)
  | Panic (msg : String)
deriving DecidableEq

/-- A parse error together with the position it is reported at. -/
structure ParseError where
  err : ParseErrorType
  pos : Position
deriving DecidableEq

/-- Helper mirroring `ParseErrorType::into_err`. -/
def ParseErrorType.into_err (e : ParseErrorType) (p : Position) : ParseError :=
  ⟨e, p⟩

/-- Model of the external lexer token type (token.rs `Token`), restricted to
the token constructors whose handling in parser.rs the claims exercise. -/
inductive Token where
  | IntegerConstant (i : Int)
  | FloatConstant (f : FLOAT)
  | CharConstant (c : Char)
  | StringConstant (s : String)
  | True
  | False
  | Identifier (s : String)
  | Reserved (s : String)
  | Custom (s : String)
  | Let
  | Const
  | Import
  | As
  | Switch
  | Underscore
  | DoubleArrow
  | Equals
  | SemiColon
  | Comma
  | Colon
  | LeftBrace
  | RightBrace
  | MapStart
  | LeftBracket
  | RightBracket
  | LeftParen
  | RightParen
  | UnaryMinus
  | UnaryPlus
  | Plus
  | Minus
  | Multiply
  | Divide
  | Modulo
  | PowerOf
  | LeftShift
  | RightShift
  | Ampersand
  | Pipe
  | XOr
  | Or
  | EqualsTo
  | NotEqualsTo
  | LessThan
  | LessThanEqualsTo
  | GreaterThan
  | GreaterThanEqualsTo
  | EOF
deriving DecidableEq

/-- Printable syntax of a token (token.rs `Token::syntax`), modelled from
the language's concrete syntax. -/
def Token.synText : Token → String
  | .IntegerConstant i => toString i
  | .FloatConstant _ => "#float"
  | .CharConstant c => String.mk [c]
  | .StringConstant s => s
  | .True => "true"
  | .False => "false"
  | .Identifier s => s
  | .Reserved s => s
  | .Custom s => s
  | .Let => "let"
  | .Const => "const"
  | .Import => "import"
  | .As => "as"
  | .Switch => "switch"
  | .Underscore => "_"
  | .DoubleArrow => "=>"
  | .Equals => "="
  | .SemiColon => ";"
  | .Comma => ","
  | .Colon => ":"
  | .LeftBrace => "\x7b"
  | .RightBrace => "\x7d"
  | .MapStart => "#\x7b"
  | .LeftBracket => "["
  | .RightBracket => "]"
  | .LeftParen => "("
  | .RightParen => ")"
  | .UnaryMinus => "-"
  | .UnaryPlus => "+"
  | .Plus => "+"
  | .Minus => "-"
  | .Multiply => "*"
  | .Divide => "/"
  | .Modulo => "%"
  | .PowerOf => "~"
  | .LeftShift => "<<"
  | .RightShift => ">>"
  | .Ampersand => "&"
  | .Pipe => "|"
  | .XOr => "^"
  | .Or => "||"
  | .EqualsTo => "=="
  | .NotEqualsTo => "!="
  | .LessThan => "<"
  | .LessThanEqualsTo => "<="
  | .GreaterThan => ">"
  | .GreaterThanEqualsTo => ">="
  | .EOF => "end-of-file"

/-- Binary-operator precedence of a token (token.rs `Token::precedence`),
modelled from the reference precedence table; non-operator tokens have
precedence 0, which terminates precedence climbing. -/
def Token.precedence : Token → Nat
  | .Or | .XOr | .Pipe => 30
  | .Ampersand => 60
  | .EqualsTo | .NotEqualsTo => 90
  | .LessThan | .LessThanEqualsTo | .GreaterThan | .GreaterThanEqualsTo => 130
  | .Plus | .Minus => 150
  | .Divide | .Multiply | .Modulo => 180
  | .PowerOf => 190
  | .LeftShift | .RightShift => 210
  | .Custom _ => 160
  | _ => 0

/-- Right-associativity of a token (token.rs `Token::is_bind_right`):
assignment and exponentiation bind to the right. -/
def Token.is_bind_right : Token → Bool
  | .Equals | .PowerOf => true
  | _ => false

/-- Whether a token is the end-of-input marker (token.rs `Token::is_eof`). -/
def Token.is_eof : Token → Bool
  | .EOF => true
  | _ => false

/-- Validity of an identifier name (token.rs `is_valid_identifier`),
modelled over ASCII: a leading letter or underscore followed by letters,
digits or underscores. -/
def is_valid_identifier (s : String) : Bool :=
  match s.toList with
  | [] => false
  | c :: rest =>
      (c.isAlpha || c = '_') && rest.all (fun d => d.isAlphanum || d = '_')

/-- Keyword-shaped function names admitted in call position
(token.rs `is_keyword_function`). -/
def is_keyword_function (s : String) : Bool :=
  s = "type_of" || s = "eval" || s = "Fn" || s = "call" || s = "curry" ||
    s = "is_shared"

/-- engine.rs `KEYWORD_FN_PTR`. -/
def KEYWORD_FN_PTR : String := "Fn"

/-- engine.rs `KEYWORD_EVAL`. -/
def KEYWORD_EVAL : String := "eval"

/-- engine.rs `KEYWORD_FN_PTR_CURRY`. -/
def KEYWORD_FN_PTR_CURRY : String := "curry"

/-- engine.rs `KEYWORD_THIS`. -/
def KEYWORD_THIS : String := "this"

/-- engine.rs `FN_ANONYMOUS`, the prefix of synthesized anonymous-function
names. -/
def FN_ANONYMOUS : String := "anon$"

/-- engine.rs `make_getter`: the getter function name of a property. -/
def make_getter (name : String) : String := "get$" ++ name

/-- engine.rs `make_setter`: the setter function name of a property. -/
def make_setter (name : String) : String := "set$" ++ name

/-- syntax.rs `MARKER_EXPR`. -/
def MARKER_EXPR : String := "$expr$"

/-- syntax.rs `MARKER_BLOCK`. -/
def MARKER_BLOCK : String := "$block$"

/-- syntax.rs `MARKER_IDENT`. -/
def MARKER_IDENT : String := "$ident$"

/-- Deterministic model of a streaming string hash (utils.rs hashing). -/
def strHash (s : String) : Nat :=
  s.toList.foldl (fun h c => h * 131 + c.toNat + 1) 7

/-- Hash of a list of strings, folded in order. -/
def strListHash (l : List String) : Nat :=
  l.foldl (fun h s => Nat.pair h (strHash s)) 3

/-- Model of `calc_script_fn_hash` (utils.rs): a nonzero hash of the
qualifier path, the function name and the arity.  The result is always
`some` (nonzero) in this model. -/
def calc_script_fn_hash (quals : List String) (name : String) (arity : Nat) :
    Option Nat :=
  some (Nat.pair (strListHash quals) (Nat.pair (strHash name) arity) + 1)

/-- Structural hash of a `FLOAT` value. -/
def floatHash : FLOAT → Nat
  | .ofInt i => Nat.pair 0 (Int.natAbs (2 * i) + (if i < 0 then 1 else 0))
  | .neg f => Nat.pair 1 (floatHash f)

/-- Model of hashing a `Dynamic` constant with the engine hasher
(`value.hash(hasher)` in parse_switch): a deterministic content hash. -/
def dynHash : Dyn → Nat
  | .Unit => 0
  | .Bool b => if b then 1 else 2
  | .Int i => Nat.pair 3 (Int.natAbs (2 * i) + (if i < 0 then 1 else 0))
  | .Float f => Nat.pair 4 (floatHash f)
  | .Char c => Nat.pair 5 c.toNat
  | .Str s => Nat.pair 6 (strHash s)

/-- Model of hashing the script hash together with a position (used to
synthesize anonymous-function names). -/
def scriptPosHash (script_hash : Nat) (pos : Position) : Nat :=
  Nat.pair script_hash pos

/-- Hexadecimal rendering padded to 16 digits, modelling
`format!("\x7b:016x\x7d", hash)`. -/
def hex16 (n : Nat) : String :=
  let ds := (Nat.toDigits 16 n).asString
  String.mk (List.replicate (16 - ds.length) '0') ++ ds

/-- i64 minimum, the only value on which `i64::checked_neg` fails. -/
def INT_MIN : Int := -(2 ^ 63)

/-- Model of `i64::checked_neg`: `none` exactly when the negation leaves
the i64 range. -/
def i64_checked_neg (n : Int) : Option Int :=
  if -(2 ^ 63) ≤ -n ∧ -n ≤ 2 ^ 63 - 1 then some (-n) else none

/-- A registered custom-syntax descriptor (syntax.rs `CustomSyntax`):
scope delta, the user parse callback, and an opaque id for the emit
function. -/
structure CustomSyn where
  scope_delta : Int
  parse_fn : List String → String → Except ParseErrorType (Option String)
  func : Nat

/-- The engine configuration the parser consults (`Engine` fields and
accessors used by parser.rs). -/
structure Engine where
  max_array_size : Nat
  max_map_size : Nat
  max_expr_depth : Nat
  max_function_expr_depth : Nat
  floatEnabled : Bool := true
  custom_keywords : List (String × Option Nat) := []
  custom_syn : List (String × CustomSyn) := []

/-- Parser state (parser.rs `ParseState`); the engine reference lives in
the surrounding parse context instead of the state record. -/
structure ParseState where
  script_hash : Nat
  strings : List String
  stack : List (String × AccessMode)
  entry_stack_len : Nat
  externals : List (String × Position)
  allow_capture : Bool
  modules : List String
  max_expr_depth : Nat
  max_function_expr_depth : Nat

/-- parser.rs `ParseState::new`. -/
def ParseState.new (script_hash : Nat)
    (max_expr_depth max_function_expr_depth : Nat) : ParseState where
  script_hash := script_hash
  strings := []
  stack := []
  entry_stack_len := 0
  externals := []
  allow_capture := true
  modules := []
  max_expr_depth := max_expr_depth
  max_function_expr_depth := max_function_expr_depth

/-- The reverse scan at the heart of `ParseState::access_var`: the
argument list is the scope stack already reversed (top first).  Returns
the barrier flag (an empty-named entry was visited before the scan
terminated) and the 0-based offset of the first match, exactly as the
`iter().rev().enumerate().find(..)` chain computes them. -/
def scan_stack (name : String) : List (String × AccessMode) → Bool × Option Nat
  | [] => (false, none)
  | (n, _) :: rest =>
      if n = "" then
        let r := scan_stack name rest
        (true, r.2.map (· + 1))
      else if n = name then (false, some 0)
      else
        let r := scan_stack name rest
        (r.1, r.2.map (· + 1))

/-- parser.rs `ParseState::access_var`: reverse-scan the scope stack for
`name`; record the name in the externals map when unresolved and capture
is allowed; return the 1-based top offset unless a barrier was crossed. -/
def ParseState.access_var (st : ParseState) (name : String) (pos : Position) :
    Option Nat × ParseState :=
  let r := scan_stack name st.stack.reverse
  let barrier := r.1
  let index : Option Nat := r.2.map (· + 1)
  let st :=
    if st.allow_capture then
      if index.isNone && !(st.externals.any (fun p => p.1 = name)) then
        { st with externals := st.externals ++ [(name, pos)] }
      else st
    else { st with allow_capture := true }
  (if barrier then none else index, st)

/-- Reverse scan of the module stack (helper for `find_module`); argument
is the module list already reversed. -/
def find_in_rev (name : String) : List String → Option Nat
  | [] => none
  | m :: rest =>
      if m = name then some 0 else (find_in_rev name rest).map (· + 1)

/-- parser.rs `ParseState::find_module`. -/
def ParseState.find_module (st : ParseState) (name : String) : Option Nat :=
  (find_in_rev name st.modules.reverse).map (· + 1)

/-- parser.rs `ParseState::get_interned_string`: the canonical handle is
the string itself; the intern table is extended on a miss. -/
def ParseState.get_interned_string (st : ParseState) (s : String) :
    String × ParseState :=
  if st.strings.any (fun t => t = s) then (s, st)
  else (s, { st with strings := st.strings ++ [s] })

/-- Per-production parse settings (parser.rs `ParseSettings`). -/
structure ParseSettings where
  pos : Position
  is_global : Bool
  is_function_scope : Bool
  is_breakable : Bool
  allow_anonymous_fn : Bool
  allow_if_expr : Bool
  allow_switch_expr : Bool
  allow_stmt_expr : Bool
  level : Nat
deriving DecidableEq

/-- parser.rs `ParseSettings::level_up`. -/
def ParseSettings.level_up (s : ParseSettings) : ParseSettings :=
  { s with level := s.level + 1 }

/-- parser.rs `ParseSettings::ensure_level_within_max_limit`: a zero limit
disables the check; otherwise a nesting level strictly above the limit is
an `ExprTooDeep` error. -/
def ParseSettings.ensure_level_within_max_limit (s : ParseSettings)
    (limit : Nat) : Except ParseError Unit :=
  if limit = 0 then .ok ()
  else if s.level > limit then .error (ParseErrorType.ExprTooDeep.into_err s.pos)
  else .ok ()

/-- The full parse context threaded through every production: the engine,
the remaining token stream, the parse state and the functions library. -/
structure PCtx where
  engine : Engine
  input : List (Token × Position)
  state : ParseState
  lib : List (Nat × ScriptFnDef)

/-- peek on the token stream; the stream contract guarantees an EOF
sentinel, so an empty stream is a panic (`peek().unwrap()`). -/
def peekT (c : PCtx) : Except ParseError (Token × Position) :=
  match c.input with
  | [] => .error ⟨.Panic "peek on exhausted stream", Position.NONE⟩
  | t :: _ => .ok t

/-- next on the token stream (`input.next().unwrap()`). -/
def nextT (c : PCtx) : Except ParseError ((Token × Position) × PCtx) :=
  match c.input with
  | [] => .error ⟨.Panic "next on exhausted stream", Position.NONE⟩
  | t :: rest => .ok (t, { c with input := rest })

/-- parser.rs `eat_token`: consume a token that is known to be next;
anything else is the source's `unreachable!`. -/
def eat_token (c : PCtx) (t : Token) : Except ParseError (Position × PCtx) := do
  let ((tok, pos), c) ← nextT c
  if tok = t then .ok (pos, c)
  else .error ⟨.Panic ("eat_token expecting " ++ t.synText), pos⟩

/-- parser.rs `match_token`: consume a particular token if it is next. -/
def match_token (c : PCtx) (t : Token) :
    Except ParseError ((Bool × Position) × PCtx) := do
  let (tok, pos) ← peekT c
  if tok = t then do
    let (p, c) ← eat_token c t
    .ok ((true, p), c)
  else .ok ((false, pos), c)

/-- Position of an expression (ast.rs `Expr::position`). -/
def Expr.position : Expr → Position
  | .Unit p => p
  | .BoolConstant _ p => p
  | .IntegerConstant _ p => p
  | .FloatConstant _ p => p
  | .CharConstant _ p => p
  | .StringConstant _ p => p
  | .Array _ p => p
  | .Map _ p => p
  | .Variable _ _ ident => ident.pos
  | .Property _ _ ident => ident.pos
  | .FnCall _ _ _ _ _ _ p => p
  | .FnPointer _ p => p
  | .Dot _ _ p => p
  | .Index _ _ p => p
  | .And _ _ p => p
  | .Or _ _ p => p
  | .In _ _ p => p
  | .Custom _ _ _ p => p
  | .Stmt _ p => p

/-- Constant-ness of an expression (ast.rs `Expr::is_constant`), modelled
from the spec for the scalar literal kinds; aggregate literals are not
needed by any claim. -/
def Expr.is_constant : Expr → Bool
  | .Unit _ => true
  | .BoolConstant _ _ => true
  | .IntegerConstant _ _ => true
  | .FloatConstant _ _ => true
  | .CharConstant _ _ => true
  | .StringConstant _ _ => true
  | _ => false

/-- Constant value of a literal expression (ast.rs
`Expr::get_constant_value`), modelled from the spec for the scalar
literal kinds. -/
def Expr.get_constant_value : Expr → Option Dyn
  | .Unit _ => some .Unit
  | .BoolConstant b _ => some (.Bool b)
  | .IntegerConstant i _ => some (.Int i)
  | .FloatConstant f _ => some (.Float f)
  | .CharConstant c _ => some (.Char c)
  | .StringConstant s _ => some (.Str s)
  | _ => none

/-- Whether a token may extend a primary expression as a postfix
(ast.rs `Expr::is_valid_postfix`), modelled from the spec: `[` extends any
primary, a call `(` extends identifiers; the other postfix starters are
outside the modelled token set. -/
def Expr.is_valid_postfix_tok : Expr → Token → Bool
  | .Variable _ _ _, .LeftParen => true
  | _, .LeftParen => false
  | _, .LeftBracket => true
  | _, _ => false

/-- Whether a statement is a no-op (ast.rs `Stmt::is_noop`). -/
def Stmt.is_noop : Stmt → Bool
  | .Noop _ => true
  | _ => false

/-- Whether a statement needs no terminating semicolon (ast.rs
`Stmt::is_self_terminated`), restricted to the modelled statement kinds:
blocks and switches are self-terminated. -/
def Stmt.is_self_terminated : Stmt → Bool
  | .Block _ _ => true
  | .Switch _ _ _ _ => true
  | _ => false

/-- parser.rs `Expr::into_property`: an unqualified variable becomes a
property access with interned getter and setter names. -/
def Expr.into_property (e : Expr) (st : ParseState) : Expr × ParseState :=
  match e with
  | .Variable _ none ident =>
      let (getter, st) := st.get_interned_string (make_getter ident.name)
      let (setter, st) := st.get_interned_string (make_setter ident.name)
      (.Property getter setter ident, st)
  | e => (e, st)

/-- Lookup in the custom-keyword precedence map
(`engine.custom_keywords.get`). -/
def kw_lookup (l : List (String × Option Nat)) (k : String) :
    Option (Option Nat) :=
  (l.find? (fun p => p.1 = k)).map (fun p => p.2)

/-- Lookup in the custom-syntax map (`engine.custom_syntax.get_key_value`). -/
def syn_lookup (l : List (String × CustomSyn)) (k : String) :
    Option (String × CustomSyn) :=
  l.find? (fun p => p.1 = k)

/-- HashMap-style insert on the functions library (overwrite by key). -/
def lib_insert (l : List (Nat × ScriptFnDef)) (k : Nat) (v : ScriptFnDef) :
    List (Nat × ScriptFnDef) :=
  (l.filter (fun p => !(p.1 = k))) ++ [(k, v)]

/-- The scope-stack adjustment performed at the start of
`parse_custom_syntax` (parser.rs lines 1921-1937): a positive delta pushes
that many empty-named barrier entries; a negative delta whose magnitude
reaches the stack length clears the stack; otherwise the stack is
truncated by the magnitude.  The `usize` subtraction of the truncate
branch is modelled as a checked subtraction, so a `none` result stands
for the Rust underflow panic. -/
def custom_stx_adjust (delta : Int) (stack : List (String × AccessMode)) :
    Option (List (String × AccessMode)) :=
  if delta > 0 then
    some (stack ++ List.replicate delta.toNat ("", AccessMode.ReadWrite))
  else if delta < 0 ∧ stack.length ≤ delta.natAbs then some []
  else if delta < 0 then
    if delta.natAbs ≤ stack.length then
      some (stack.take (stack.length - delta.natAbs))
    else none
  else some stack

/-- parser.rs `make_dot_expr`: dot-chain canonicalization and the
rejections of method-style `Fn`/`eval` and of `!`-capture calls after a
dot. -/
def make_dot_expr (st : ParseState) (lhs rhs : Expr) (op_pos : Position) :
    Except ParseError (Expr × ParseState) :=
  match lhs, rhs with
  | .Index xl xr pos, rhs => do
      let (r, st) ← make_dot_expr st xr rhs op_pos
      .ok (.Index xl r pos, st)
  | lhs, .Variable _ none ident =>
      let (getter, st) := st.get_interned_string (make_getter ident.name)
      let (setter, st) := st.get_interned_string (make_setter ident.name)
      .ok (.Dot lhs (.Property getter setter ident) op_pos, st)
  | _, .Variable _ (some nsp) _ =>
      match nsp.2.path with
      | i :: _ => .error ⟨.PropertyExpected, i.pos⟩
      | [] => .error ⟨.Panic "empty namespace path", Position.NONE⟩
  | lhs, .Property g s ident =>
      .ok (.Dot lhs (.Property g s ident) op_pos, st)
  | lhs, .Dot il ir pos =>
      let (ilp, st) := il.into_property st
      .ok (.Dot lhs (.Dot ilp ir pos) op_pos, st)
  | lhs, .Index il ir pos =>
      let (ilp, st) := il.into_property st
      .ok (.Dot lhs (.Index ilp ir pos) op_pos, st)
  | lhs, .FnCall name capture ns hs args dv pos =>
      if args.length = 0 ∧ (name = KEYWORD_FN_PTR ∨ name = KEYWORD_EVAL) then
        .error ⟨.ImproperSymbol name
          ("\x27" ++ name ++ "\x27 should not be called in method style. Try "
            ++ name ++ "(...);"), pos⟩
      else if capture then
        .error ⟨.MalformedCapture "method-call style does not support capturing",
          pos⟩
      else
        .ok (.Dot lhs (.FnCall name capture ns hs args dv pos) op_pos, st)
  | _, rhs => .error ⟨.PropertyExpected, rhs.position⟩

/-- The `check_lvalue` helper of `make_assignment_stmt`; the source's
`unreachable!` branches are the `Panic` outcomes. -/
def check_lvalue (expr : Expr) (parent_is_dot : Bool) :
    Except ParseError Position :=
  match expr with
  | .Index l r _ =>
      if parent_is_dot then
        match l with
        | .Property _ _ _ => check_lvalue r false
        | e => .ok e.position
      else
        match l with
        | .Property _ _ _ =>
            .error ⟨.Panic "unexpected Expr::Property in indexing", Position.NONE⟩
        | _ => check_lvalue r false
  | .Dot l r _ =>
      if parent_is_dot then
        match l with
        | .Property _ _ _ => check_lvalue r true
        | e => .ok e.position
      else
        match l with
        | .Property _ _ _ =>
            .error ⟨.Panic "unexpected Expr::Property in indexing", Position.NONE⟩
        | _ => check_lvalue r true
  | .Property _ _ _ =>
      if parent_is_dot then .ok Position.NONE
      else .error ⟨.Panic "unexpected Expr::Property in indexing", Position.NONE⟩
  | e => if parent_is_dot then .ok e.position else .ok Position.NONE

/-- parser.rs `make_assignment_stmt`: lvalue validation and construction
of an assignment statement. -/
def make_assignment_stmt (fn_name : String) (st : ParseState)
    (lhs rhs : Expr) (op_pos : Position) : Except ParseError Stmt :=
  if lhs.is_constant then
    .error ⟨.AssignmentToConstant "", lhs.position⟩
  else
    match lhs with
    | .Variable none ns ident =>
        .ok (.Assignment (.Variable none ns ident) fn_name rhs op_pos)
    | .Variable (some idx) ns ident =>
        (match st.stack.get? (st.stack.length - idx) with
        | some (_, .ReadWrite) =>
            .ok (.Assignment (.Variable (some idx) ns ident) fn_name rhs op_pos)
        | some (_, .ReadOnly) =>
            .error ⟨.AssignmentToConstant ident.name, ident.pos⟩
        | none => .error ⟨.Panic "scope stack index out of range", ident.pos⟩)
    | .Index xl xr lp => do
        let p ← check_lvalue xr false
        if p = Position.NONE then
          match xl with
          | .Variable none ns ident =>
              .ok (.Assignment (.Index (.Variable none ns ident) xr lp)
                fn_name rhs op_pos)
          | .Variable (some idx) ns ident =>
              (match st.stack.get? (st.stack.length - idx) with
              | some (_, .ReadWrite) =>
                  .ok (.Assignment (.Index (.Variable (some idx) ns ident) xr lp)
                    fn_name rhs op_pos)
              | some (_, .ReadOnly) =>
                  .error ⟨.AssignmentToConstant ident.name, ident.pos⟩
              | none => .error ⟨.Panic "scope stack index out of range", ident.pos⟩)
          | e => .error ⟨.AssignmentToInvalidLHS "", e.position⟩
        else .error ⟨.AssignmentToInvalidLHS "", p⟩
    | .Dot xl xr lp => do
        let p ← check_lvalue xr true
        if p = Position.NONE then
          match xl with
          | .Variable none ns ident =>
              .ok (.Assignment (.Dot (.Variable none ns ident) xr lp)
                fn_name rhs op_pos)
          | .Variable (some idx) ns ident =>
              (match st.stack.get? (st.stack.length - idx) with
              | some (_, .ReadWrite) =>
                  .ok (.Assignment (.Dot (.Variable (some idx) ns ident) xr lp)
                    fn_name rhs op_pos)
              | some (_, .ReadOnly) =>
                  .error ⟨.AssignmentToConstant ident.name, ident.pos⟩
              | none => .error ⟨.Panic "scope stack index out of range", ident.pos⟩)
          | e => .error ⟨.AssignmentToInvalidLHS "", e.position⟩
        else .error ⟨.AssignmentToInvalidLHS "", p⟩
    | .And _ _ _ =>
        .error ⟨.ImproperSymbol "=" "Possibly a typo of \x27==\x27?", op_pos⟩
    | .Or _ _ _ =>
        .error ⟨.ImproperSymbol "=" "Possibly a typo of \x27==\x27?", op_pos⟩
    | _ => .error ⟨.AssignmentToInvalidLHS "", lhs.position⟩

/-- The operator-node construction step at the end of each
`parse_binary_op` iteration (parser.rs lines 1799-1903): arithmetic,
bitwise and shift operators become plain function calls; `!=` carries the
default value `true`; `==` and the orderings carry the default value
`false`; `||` becomes a short-circuit node; registered custom operators
become calls with a precomputed arity-2 script hash when the name is a
valid identifier. -/
def binary_op_node (e : Engine) (op_token : Token) (root rhs : Expr)
    (pos : Position) : Except ParseError Expr :=
  let cmp_def : Option Dyn := some (.Bool false)
  let op := op_token.synText
  let args := [root, rhs]
  match op_token with
  | .Plus | .Minus | .Multiply | .Divide | .LeftShift | .RightShift
  | .Modulo | .PowerOf | .Ampersand | .Pipe | .XOr =>
      .ok (.FnCall op false none none args none pos)
  | .NotEqualsTo =>
      .ok (.FnCall op false none none args (some (.Bool true)) pos)
  | .EqualsTo | .LessThan | .LessThanEqualsTo | .GreaterThan
  | .GreaterThanEqualsTo =>
      .ok (.FnCall op false none none args cmp_def pos)
  | .Or => .ok (.Or root rhs pos)
  | .Custom s =>
      if ((kw_lookup e.custom_keywords s).map Option.isSome).getD false then
        let hash_script :=
          if is_valid_identifier s then calc_script_fn_hash [] s 2 else none
        .ok (.FnCall op false none hash_script args none pos)
      else .error ⟨.UnknownOperator op, pos⟩
  | t => .error ⟨.UnknownOperator t.synText, pos⟩

/-- parser.rs `make_curry_from_externals`: wrap a function pointer in a
`curry` call over the captured variables, inside a block that `Share`s
each of them. -/
def make_curry_from_externals (fn_expr : Expr) (externals : List Ident)
    (pos : Position) : Expr :=
  if externals.isEmpty then fn_expr
  else
    let num_externals := externals.length
    let args := fn_expr :: externals.map (fun x => Expr.Variable none none x)
    let hash_script := calc_script_fn_hash [] KEYWORD_FN_PTR_CURRY
      (num_externals + 1)
    let e := Expr.FnCall KEYWORD_FN_PTR_CURRY false none hash_script args
      none pos
    Expr.Stmt (externals.map (fun x => Stmt.Share x) ++ [Stmt.Expr e]) pos

/-- The parse-time index type check of `parse_index_chain` (parser.rs
lines 468-583): integer indices are rejected on maps and on
non-indexable literal receivers, string indices on arrays and strings,
and float / char / unit / boolean index expressions are always rejected. -/
def index_expr_type_check (lhs idx_expr : Expr) : Except ParseError Unit :=
  match idx_expr with
  | .IntegerConstant x ipos =>
      if x < 0 then
        .error ⟨.MalformedIndexExpr
          ("Array access expects non-negative index: " ++ toString x ++ " < 0"),
          ipos⟩
      else
        match lhs with
        | .Array _ _ => .ok ()
        | .StringConstant _ _ => .ok ()
        | .Map _ _ =>
            .error ⟨.MalformedIndexExpr
              "Object map access expects string index, not a number", ipos⟩
        | .FloatConstant _ _ =>
            .error ⟨.MalformedIndexExpr
              "Only arrays, object maps and strings can be indexed", lhs.position⟩
        | .CharConstant _ _ =>
            .error ⟨.MalformedIndexExpr
              "Only arrays, object maps and strings can be indexed", lhs.position⟩
        | .And _ _ _ =>
            .error ⟨.MalformedIndexExpr
              "Only arrays, object maps and strings can be indexed", lhs.position⟩
        | .Or _ _ _ =>
            .error ⟨.MalformedIndexExpr
              "Only arrays, object maps and strings can be indexed", lhs.position⟩
        | .In _ _ _ =>
            .error ⟨.MalformedIndexExpr
              "Only arrays, object maps and strings can be indexed", lhs.position⟩
        | .BoolConstant _ _ =>
            .error ⟨.MalformedIndexExpr
              "Only arrays, object maps and strings can be indexed", lhs.position⟩
        | .Unit _ =>
            .error ⟨.MalformedIndexExpr
              "Only arrays, object maps and strings can be indexed", lhs.position⟩
        | _ => .ok ()
  | .StringConstant _ ipos =>
      (match lhs with
      | .Map _ _ => .ok ()
      | .Array _ _ =>
          .error ⟨.MalformedIndexExpr
            "Array or string expects numeric index, not a string", ipos⟩
      | .StringConstant _ _ =>
          .error ⟨.MalformedIndexExpr
            "Array or string expects numeric index, not a string", ipos⟩
      | .FloatConstant _ _ =>
          .error ⟨.MalformedIndexExpr
            "Only arrays, object maps and strings can be indexed", lhs.position⟩
      | .CharConstant _ _ =>
          .error ⟨.MalformedIndexExpr
            "Only arrays, object maps and strings can be indexed", lhs.position⟩
      | .And _ _ _ =>
          .error ⟨.MalformedIndexExpr
            "Only arrays, object maps and strings can be indexed", lhs.position⟩
      | .Or _ _ _ =>
          .error ⟨.MalformedIndexExpr
            "Only arrays, object maps and strings can be indexed", lhs.position⟩
      | .In _ _ _ =>
          .error ⟨.MalformedIndexExpr
            "Only arrays, object maps and strings can be indexed", lhs.position⟩
      | .BoolConstant _ _ =>
          .error ⟨.MalformedIndexExpr
            "Only arrays, object maps and strings can be indexed", lhs.position⟩
      | .Unit _ =>
          .error ⟨.MalformedIndexExpr
            "Only arrays, object maps and strings can be indexed", lhs.position⟩
      | _ => .ok ())
  | .FloatConstant _ _ =>
      .error ⟨.MalformedIndexExpr
        "Array access expects integer index, not a float", idx_expr.position⟩
  | .CharConstant _ _ =>
      .error ⟨.MalformedIndexExpr
        "Array access expects integer index, not a character", idx_expr.position⟩
  | .Unit _ =>
      .error ⟨.MalformedIndexExpr
        "Array access expects integer index, not ()", idx_expr.position⟩
  | .And _ _ _ =>
      .error ⟨.MalformedIndexExpr
        "Array access expects integer index, not a boolean", idx_expr.position⟩
  | .Or _ _ _ =>
      .error ⟨.MalformedIndexExpr
        "Array access expects integer index, not a boolean", idx_expr.position⟩
  | .In _ _ _ =>
      .error ⟨.MalformedIndexExpr
        "Array access expects integer index, not a boolean", idx_expr.position⟩
  | .BoolConstant _ _ =>
      .error ⟨.MalformedIndexExpr
        "Array access expects integer index, not a boolean", idx_expr.position⟩
  | _ => .ok ()

/-- The hash-key caching step for namespace-qualified variables at the end
of `parse_primary` (parser.rs lines 1239-1258): fill in the precomputed
script hash and the module-stack index of a qualified variable, possibly
sitting under the left side of a top `Index`/`Dot` node. -/
def cache_qualified_var_hash (root : Expr) (st : ParseState) :
    Except ParseError Expr :=
  let fix : Expr → Except ParseError Expr := fun v =>
    match v with
    | .Variable idx (some (_, ns)) ident =>
        (match calc_script_fn_hash (ns.path.map (fun i => i.name)) ident.name 0 with
        | some hv =>
            let mname := (ns.path.headD ⟨"", Position.NONE⟩).name
            .ok (.Variable idx (some (hv, { ns with index := st.find_module mname }))
              ident)
        | none => .error ⟨.Panic "calc_script_fn_hash returned None", Position.NONE⟩)
    | _ => .error ⟨.Panic "expecting namespace-qualified variable access",
        Position.NONE⟩
  match root with
  | .Variable idx (some nsp) ident => fix (.Variable idx (some nsp) ident)
  | .Index l r p =>
      (match l with
      | .Variable idx (some nsp) ident => do
          let l2 ← fix (.Variable idx (some nsp) ident)
          .ok (.Index l2 r p)
      | _ => .ok (.Index l r p))
  | .Dot l r p =>
      (match l with
      | .Variable idx (some nsp) ident => do
          let l2 ← fix (.Variable idx (some nsp) ident)
          .ok (.Dot l2 r p)
      | _ => .ok (.Dot l r p))
  | e => .ok e

/-- The fuel-exhaustion outcome of the fuel-driven recursion; it never
occurs on the runs used by the theorems. -/
def fuelErr : ParseError := ⟨.Panic "fuel exhausted", Position.NONE⟩


/-- Record of the mutually recursive parsing procedures (open-recursion
form of parser.rs's mutually recursive functions; the knot is tied by
`parserFnsAt` below, whose `Nat` argument is the recursion fuel). -/
structure ParserFns where
  parse_paren_expr : PCtx → ParseSettings → Except ParseError (Expr × PCtx)
  parse_fn_call : PCtx → String → Bool → Option NamespaceRef → ParseSettings →
    Except ParseError (Expr × PCtx)
  parse_fn_call_args_loop : PCtx → String → Bool → Option NamespaceRef →
    ParseSettings → List Expr → Except ParseError (Expr × PCtx)
  parse_index_chain : PCtx → Expr → ParseSettings →
    Except ParseError (Expr × PCtx)
  parse_array_literal : PCtx → ParseSettings → Except ParseError (Expr × PCtx)
  parse_array_loop : PCtx → ParseSettings → List Expr →
    Except ParseError (List Expr × PCtx)
  parse_map_literal : PCtx → ParseSettings → Except ParseError (Expr × PCtx)
  parse_map_loop : PCtx → ParseSettings → List (Ident × Expr) →
    Except ParseError (List (Ident × Expr) × PCtx)
  parse_switch : PCtx → ParseSettings → Except ParseError (Stmt × PCtx)
  parse_switch_loop : PCtx → ParseSettings → List (Nat × Stmt) → Option Stmt →
    Except ParseError ((List (Nat × Stmt) × Option Stmt) × PCtx)
  parse_primary : PCtx → ParseSettings → Except ParseError (Expr × PCtx)
  parse_primary_postfix_loop : PCtx → Expr → ParseSettings →
    Except ParseError (Expr × PCtx)
  parse_unary : PCtx → ParseSettings → Except ParseError (Expr × PCtx)
  parse_binary_op : PCtx → Nat → Expr → ParseSettings →
    Except ParseError (Expr × PCtx)
  parse_binary_op_loop : PCtx → Nat → Expr → ParseSettings →
    Except ParseError (Expr × PCtx)
  parse_custom_stx : PCtx → ParseSettings → String → CustomSyn → Position →
    Except ParseError (Expr × PCtx)
  parse_custom_stx_loop : PCtx → ParseSettings → CustomSyn → List Expr →
    List String → List String →
    Except ParseError ((List Expr × List String × List String) × PCtx)
  parse_expr : PCtx → ParseSettings → Except ParseError (Expr × PCtx)
  parse_op_assignment_stmt : PCtx → Expr → ParseSettings →
    Except ParseError (Stmt × PCtx)
  parse_expr_stmt : PCtx → ParseSettings → Except ParseError (Stmt × PCtx)
  parse_stmt : PCtx → ParseSettings → Except ParseError (Stmt × PCtx)
  parse_block : PCtx → ParseSettings → Except ParseError (Stmt × PCtx)
  parse_block_loop : PCtx → ParseSettings → List Stmt →
    Except ParseError (List Stmt × PCtx)
  parse_let : PCtx → AccessMode → Bool → ParseSettings →
    Except ParseError (Stmt × PCtx)
  parse_import : PCtx → ParseSettings → Except ParseError (Stmt × PCtx)
  parse_anon_fn : PCtx → ParseSettings →
    Except ParseError ((Expr × ScriptFnDef) × PCtx)
  parse_anon_params_loop : PCtx → List (String × Position) →
    Except ParseError (List (String × Position) × PCtx)
  parse_global_level_loop : PCtx → List Stmt →
    Except ParseError (List Stmt × PCtx)

/-- parser.rs `parse_paren_expr`. -/
def parse_paren_expr_body (rec : ParserFns) (c : PCtx) (settings : ParseSettings) :
    Except ParseError (Expr × PCtx) :=
  do
    let () ← settings.ensure_level_within_max_limit c.state.max_expr_depth
    let (p, c) ← eat_token c .LeftParen
    let settings := { settings with pos := p }
    let ((matched, _), c) ← match_token c .RightParen
    if matched then .ok (.Unit settings.pos, c)
    else do
      let (expr, c) ← rec.parse_expr c settings.level_up
      let ((tok, pos), c) ← nextT c
      match tok with
      | .RightParen => .ok (expr, c)
      | _ => .error ⟨.MissingToken Token.RightParen.synText
          "for a matching ( in this expression", pos⟩

/-- parser.rs `parse_fn_call`. -/
def parse_fn_call_body (rec : ParserFns) (c : PCtx) (id : String) (capture : Bool)
    (ns : Option NamespaceRef) (settings : ParseSettings) :
    Except ParseError (Expr × PCtx) :=
  do
    let () ← settings.ensure_level_within_max_limit c.state.max_expr_depth
    let (token, token_pos) ← peekT c
    match token with
    | .EOF =>
        .error ⟨.MissingToken Token.RightParen.synText
          ("to close the arguments list of this function call \x27" ++ id
            ++ "\x27"), token_pos⟩
    | .RightParen => do
        let (_, c) ← eat_token c .RightParen
        let nsq : Option NamespaceRef :=
          match ns with
          | some m =>
              some { m with
                index := c.state.find_module (m.path.headD ⟨"", Position.NONE⟩).name }
          | none => none
        let hash_script :=
          match nsq with
          | some m => calc_script_fn_hash (m.path.map (fun i => i.name)) id 0
          | none => calc_script_fn_hash [] id 0
        let hash_script := if !(is_valid_identifier id) then none else hash_script
        .ok (.FnCall id capture nsq hash_script [] none settings.pos, c)
    | _ => rec.parse_fn_call_args_loop c id capture ns settings.level_up []

/-- The argument loop of `parse_fn_call`. -/
def parse_fn_call_args_loop_body (rec : ParserFns) (c : PCtx) (id : String)
    (capture : Bool) (ns : Option NamespaceRef) (settings : ParseSettings)
    (args : List Expr) : Except ParseError (Expr × PCtx) :=
  do
    let (tok, _) ← peekT c
    let (args, c) ←
      match tok with
      | .RightParen => .ok (args, c)
      | _ => do
          let (e, c) ← rec.parse_expr c settings
          .ok (args ++ [e], c)
    let (tok2, pos2) ← peekT c
    match tok2 with
    | .RightParen => do
        let (_, c) ← eat_token c .RightParen
        let nsq : Option NamespaceRef :=
          match ns with
          | some m =>
              some { m with
                index := c.state.find_module (m.path.headD ⟨"", Position.NONE⟩).name }
          | none => none
        let hash_script :=
          match nsq with
          | some m => calc_script_fn_hash (m.path.map (fun i => i.name)) id
              args.length
          | none => calc_script_fn_hash [] id args.length
        let hash_script := if !(is_valid_identifier id) then none else hash_script
        .ok (.FnCall id capture nsq hash_script args none settings.pos, c)
    | .Comma => do
        let (_, c) ← eat_token c .Comma
        rec.parse_fn_call_args_loop c id capture ns settings args
    | .EOF =>
        .error ⟨.MissingToken Token.RightParen.synText
          ("to close the arguments list of this function call \x27" ++ id
            ++ "\x27"), pos2⟩
    | _ =>
        .error ⟨.MissingToken Token.Comma.synText
          ("to separate the arguments to function call \x27" ++ id ++ "\x27"),
          pos2⟩

/-- parser.rs `parse_index_chain`. -/
def parse_index_chain_body (rec : ParserFns) (c : PCtx) (lhs : Expr)
    (settings : ParseSettings) : Except ParseError (Expr × PCtx) :=
  do
    let () ← settings.ensure_level_within_max_limit c.state.max_expr_depth
    let (idx_expr, c) ← rec.parse_expr c settings.level_up
    let () ← index_expr_type_check lhs idx_expr
    let (tok, pos) ← peekT c
    match tok with
    | .RightBracket => do
        let (_, c) ← eat_token c .RightBracket
        let (tok2, _) ← peekT c
        match tok2 with
        | .LeftBracket => do
            let prev_pos := settings.pos
            let (p, c) ← eat_token c .LeftBracket
            let settings := { settings with pos := p }
            let (idx_expr, c) ← rec.parse_index_chain c idx_expr
              settings.level_up
            .ok (.Index lhs idx_expr prev_pos, c)
        | _ => .ok (.Index lhs idx_expr settings.pos, c)
    | _ =>
        .error ⟨.MissingToken Token.RightBracket.synText
          "for a matching [ in this index expression", pos⟩

/-- parser.rs `parse_array_literal`. -/
def parse_array_literal_body (rec : ParserFns) (c : PCtx) (settings : ParseSettings) :
    Except ParseError (Expr × PCtx) :=
  do
    let () ← settings.ensure_level_within_max_limit c.state.max_expr_depth
    let (p, c) ← eat_token c .LeftBracket
    let settings := { settings with pos := p }
    let (arr, c) ← rec.parse_array_loop c settings []
    .ok (.Array arr settings.pos, c)

/-- The element loop of `parse_array_literal`; note that the size check
sits at the top of the loop, before the closing-bracket check. -/
def parse_array_loop_body (rec : ParserFns) (c : PCtx) (settings : ParseSettings)
    (arr : List Expr) : Except ParseError (List Expr × PCtx) :=
  do
    if c.engine.max_array_size > 0 ∧ arr.length ≥ c.engine.max_array_size then do
      let (_, ppos) ← peekT c
      .error ⟨.LiteralTooLarge "Size of array literal" c.engine.max_array_size,
        ppos⟩
    else do
      let (tok, pos) ← peekT c
      match tok with
      | .RightBracket => do
          let (_, c) ← eat_token c .RightBracket
          .ok (arr, c)
      | .EOF =>
          .error ⟨.MissingToken Token.RightBracket.synText
            "to end this array literal", pos⟩
      | _ => do
          let (e, c) ← rec.parse_expr c settings.level_up
          let arr := arr ++ [e]
          let (tok2, pos2) ← peekT c
          match tok2 with
          | .Comma => do
              let (_, c) ← eat_token c .Comma
              rec.parse_array_loop c settings arr
          | .RightBracket => rec.parse_array_loop c settings arr
          | .EOF =>
              .error ⟨.MissingToken Token.RightBracket.synText
                "to end this array literal", pos2⟩
          | _ =>
              .error ⟨.MissingToken Token.Comma.synText
                "to separate the items of this array literal", pos2⟩

/-- parser.rs `parse_map_literal`. -/
def parse_map_literal_body (rec : ParserFns) (c : PCtx) (settings : ParseSettings) :
    Except ParseError (Expr × PCtx) :=
  do
    let () ← settings.ensure_level_within_max_limit c.state.max_expr_depth
    let (p, c) ← eat_token c .MapStart
    let settings := { settings with pos := p }
    let (map, c) ← rec.parse_map_loop c settings []
    .ok (.Map map settings.pos, c)

/-- The entry loop of `parse_map_literal`; the size check runs after the
property name and its colon are consumed, before the value expression. -/
def parse_map_loop_body (rec : ParserFns) (c : PCtx) (settings : ParseSettings)
    (map : List (Ident × Expr)) :
    Except ParseError (List (Ident × Expr) × PCtx) :=
  do
    let (tok, pos) ← peekT c
    match tok with
    | .RightBrace => do
        let (_, c) ← eat_token c .RightBrace
        .ok (map, c)
    | .EOF =>
        .error ⟨.MissingToken Token.RightBrace.synText
          "to end this object map literal", pos⟩
    | _ => do
        let ((ntok, npos), c) ← nextT c
        let (name, name_pos) ←
          match ntok with
          | .Identifier s | .StringConstant s =>
              if map.any (fun q => q.1.name = s) then
                .error ⟨.DuplicatedProperty s, npos⟩
              else .ok (s, npos)
          | .Reserved s =>
              if is_valid_identifier s then .error ⟨.Reserved s, npos⟩
              else if map.isEmpty then
                .error ⟨.MissingToken Token.RightBrace.synText
                  "to end this object map literal", npos⟩
              else .error ⟨.PropertyExpected, npos⟩
          | .EOF =>
              .error ⟨.MissingToken Token.RightBrace.synText
                "to end this object map literal", npos⟩
          | _ =>
              if map.isEmpty then
                .error ⟨.MissingToken Token.RightBrace.synText
                  "to end this object map literal", npos⟩
              else .error ⟨.PropertyExpected, npos⟩
        let ((ctok, cpos), c) ← nextT c
        let () ←
          match ctok with
          | .Colon => .ok ()
          | _ =>
              .error ⟨.MissingToken Token.Colon.synText
                ("to follow the property \x27" ++ name
                  ++ "\x27 in this object map literal"), cpos⟩
        if c.engine.max_map_size > 0 ∧ map.length ≥ c.engine.max_map_size then do
          let (_, ppos) ← peekT c
          .error ⟨.LiteralTooLarge "Number of properties in object map literal"
            c.engine.max_map_size, ppos⟩
        else do
          let (expr, c) ← rec.parse_expr c settings.level_up
          let (iname, st) := c.state.get_interned_string name
          let c := { c with state := st }
          let map := map ++ [(⟨iname, name_pos⟩, expr)]
          let (tok2, pos2) ← peekT c
          match tok2 with
          | .Comma => do
              let (_, c) ← eat_token c .Comma
              rec.parse_map_loop c settings map
          | .RightBrace => rec.parse_map_loop c settings map
          | .Identifier _ =>
              .error ⟨.MissingToken Token.Comma.synText
                "to separate the items of this object map literal", pos2⟩
          | _ =>
              .error ⟨.MissingToken Token.RightBrace.synText
                "to end this object map literal", pos2⟩

/-- parser.rs `parse_switch`. -/
def parse_switch_body (rec : ParserFns) (c : PCtx) (settings : ParseSettings) :
    Except ParseError (Stmt × PCtx) :=
  do
    let () ← settings.ensure_level_within_max_limit c.state.max_expr_depth
    let (p, c) ← eat_token c .Switch
    let settings := { settings with pos := p }
    let (item, c) ← rec.parse_expr c settings.level_up
    let ((btok, bpos), c) ← nextT c
    let () ←
      match btok with
      | .LeftBrace => .ok ()
      | _ =>
          .error ⟨.MissingToken Token.LeftBrace.synText
            "to start a switch block", bpos⟩
    let ((table, def_stmt), c) ← rec.parse_switch_loop c settings [] none
    .ok (.Switch item table def_stmt settings.pos, c)

/-- The arm loop of `parse_switch`; observe that parsing a hashed case arm
resets the default-statement accumulator to `none`. -/
def parse_switch_loop_body (rec : ParserFns) (c : PCtx) (settings : ParseSettings)
    (table : List (Nat × Stmt)) (def_stmt : Option Stmt) :
    Except ParseError ((List (Nat × Stmt) × Option Stmt) × PCtx) :=
  do
    let (tok, pos) ← peekT c
    match tok with
    | .RightBrace => do
        let (_, c) ← eat_token c .RightBrace
        .ok ((table, def_stmt), c)
    | .EOF =>
        .error ⟨.MissingToken Token.RightBrace.synText
          "to end this switch block", pos⟩
    | _ => do
        let (expr?, c) ←
          match tok with
          | .Underscore =>
              if def_stmt.isNone then do
                let (_, c) ← eat_token c .Underscore
                .ok ((none : Option Expr), c)
              else .error ⟨.DuplicatedSwitchCase, pos⟩
          | _ => do
              let (e, c) ← rec.parse_expr c settings.level_up
              .ok (some e, c)
        let hash? ←
          match expr? with
          | some expr =>
              (match expr.get_constant_value with
              | some value =>
                  let h := dynHash value
                  if table.any (fun q => q.1 = h) then
                    .error ⟨.DuplicatedSwitchCase, expr.position⟩
                  else .ok (some h)
              | none => .error ⟨.ExprExpected "a literal", expr.position⟩)
          | none => .ok (none : Option Nat)
        let ((dtok, dpos), c) ← nextT c
        let () ←
          match dtok with
          | .DoubleArrow => .ok ()
          | _ =>
              .error ⟨.MissingToken Token.DoubleArrow.synText
                "in this switch case", dpos⟩
        let (stmt, c) ← rec.parse_stmt c settings.level_up
        let need_comma := !stmt.is_self_terminated
        let (table, def_stmt) :=
          match hash? with
          | some h => (table ++ [(h, stmt)], (none : Option Stmt))
          | none => (table, some stmt)
        let (tok2, pos2) ← peekT c
        match tok2 with
        | .Comma => do
            let (_, c) ← eat_token c .Comma
            rec.parse_switch_loop c settings table def_stmt
        | .RightBrace => rec.parse_switch_loop c settings table def_stmt
        | .EOF =>
            .error ⟨.MissingToken Token.RightParen.synText
              "to end this switch block", pos2⟩
        | _ =>
            if need_comma then
              .error ⟨.MissingToken Token.Comma.synText
                "to separate the items in this switch block", pos2⟩
            else rec.parse_switch_loop c settings table def_stmt

/-- parser.rs `parse_primary`. -/
def parse_primary_body (rec : ParserFns) (c : PCtx) (settings : ParseSettings) :
    Except ParseError (Expr × PCtx) :=
  do
    let () ← settings.ensure_level_within_max_limit c.state.max_expr_depth
    let (token, token_pos) ← peekT c
    let settings := { settings with pos := token_pos }
    let (root_expr, c) ←
      match token with
      | .EOF => .error ⟨.UnexpectedEOF, settings.pos⟩
      | .IntegerConstant _ | .CharConstant _ | .StringConstant _
      | .True | .False => do
          let ((t, _), c) ← nextT c
          match t with
          | .IntegerConstant x => .ok ((Expr.IntegerConstant x settings.pos), c)
          | .CharConstant ch => .ok ((Expr.CharConstant ch settings.pos), c)
          | .StringConstant s =>
              let (is, st) := c.state.get_interned_string s
              .ok ((Expr.StringConstant is settings.pos), { c with state := st })
          | .True => .ok ((Expr.BoolConstant true settings.pos), c)
          | .False => .ok ((Expr.BoolConstant false settings.pos), c)
          | _ => .error ⟨.Panic "unexpected token", settings.pos⟩
      | .FloatConstant x => do
          let (_, c) ← nextT c
          .ok ((Expr.FloatConstant x settings.pos), c)
      | .LeftBrace =>
          if settings.allow_stmt_expr then do
            let (s, c) ← rec.parse_block c settings.level_up
            match s with
            | .Block stmts bpos => .ok ((Expr.Stmt stmts bpos), c)
            | _ => .error ⟨.Panic "expecting Stmt::Block", settings.pos⟩
          else .error ⟨.UnexpectedInput token.synText, settings.pos⟩
      | .Switch =>
          if settings.allow_switch_expr then do
            let (s, c) ← rec.parse_switch c settings.level_up
            .ok ((Expr.Stmt [s] settings.pos), c)
          else .error ⟨.UnexpectedInput token.synText, settings.pos⟩
      | .Pipe | .Or =>
          if settings.allow_anonymous_fn then do
            let saved_state := c.state
            let new_state := ParseState.new c.state.script_hash
              c.state.max_function_expr_depth c.state.max_function_expr_depth
            let settings2 : ParseSettings :=
              { allow_if_expr := true, allow_switch_expr := true,
                allow_stmt_expr := true, allow_anonymous_fn := true,
                is_global := false, is_function_scope := true,
                is_breakable := false, level := 0, pos := settings.pos }
            let c2 := { c with state := new_state }
            let ((expr, func), c2) ← rec.parse_anon_fn c2 settings2
            let outer := c2.state.externals.foldl
              (fun os q => (ParseState.access_var os q.1 q.2).2) saved_state
            let h ←
              match calc_script_fn_hash [] func.name func.params.length with
              | some h => .ok h
              | none => .error ⟨.Panic "calc_script_fn_hash returned None",
                  settings.pos⟩
            let c := { c2 with state := outer, lib := lib_insert c2.lib h func }
            .ok (expr, c)
          else .error ⟨.UnexpectedInput token.synText, settings.pos⟩
      | .LeftBracket => rec.parse_array_literal c settings.level_up
      | .MapStart => rec.parse_map_literal c settings.level_up
      | .LeftParen => rec.parse_paren_expr c settings.level_up
      | .Identifier _ => do
          let ((t, _), c) ← nextT c
          match t with
          | .Identifier s => do
              let (ptok, _) ← peekT c
              match ptok with
              | .LeftParen =>
                  let st := { c.state with allow_capture := true }
                  let (iname, st) := st.get_interned_string s
                  .ok ((Expr.Variable none none ⟨iname, settings.pos⟩),
                    { c with state := st })
              | _ =>
                  let (index, st) := c.state.access_var s settings.pos
                  let (iname, st) := st.get_interned_string s
                  .ok ((Expr.Variable index none ⟨iname, settings.pos⟩),
                    { c with state := st })
          | _ => .error ⟨.Panic "expecting Token::Identifier", settings.pos⟩
      | .Reserved _ => do
          let ((t, _), c) ← nextT c
          match t with
          | .Reserved s => do
              let (ptok, _) ← peekT c
              match ptok with
              | .LeftParen =>
                  if s = KEYWORD_THIS then .error ⟨.Reserved s, settings.pos⟩
                  else if is_keyword_function s then
                    let (iname, st) := c.state.get_interned_string s
                    .ok ((Expr.Variable none none ⟨iname, settings.pos⟩),
                      { c with state := st })
                  else .error ⟨.Reserved s, settings.pos⟩
              | _ =>
                  if s = KEYWORD_THIS then
                    if !settings.is_function_scope then
                      .error ⟨.ImproperSymbol s
                        ("\x27" ++ s ++ "\x27 can only be used in functions"),
                        settings.pos⟩
                    else
                      let (iname, st) := c.state.get_interned_string s
                      .ok ((Expr.Variable none none ⟨iname, settings.pos⟩),
                        { c with state := st })
                  else if is_valid_identifier s then
                    .error ⟨.Reserved s, settings.pos⟩
                  else .error ⟨.UnexpectedInput s, settings.pos⟩
          | _ => .error ⟨.Panic "expecting Token::Reserved", settings.pos⟩
      | t => .error ⟨.UnexpectedInput t.synText, settings.pos⟩
    let (root_expr, c) ← rec.parse_primary_postfix_loop c root_expr settings
    let root_expr ← cache_qualified_var_hash root_expr c.state
    .ok (root_expr, c)

/-- The trailing-postfix loop of `parse_primary`. -/
def parse_primary_postfix_loop_body (rec : ParserFns) (c : PCtx) (root : Expr)
    (settings : ParseSettings) : Except ParseError (Expr × PCtx) :=
  do
    let (tail_token, _) ← peekT c
    if !(root.is_valid_postfix_tok tail_token) then .ok (root, c)
    else do
      let ((tail_token, tail_pos), c) ← nextT c
      let settings := { settings with pos := tail_pos }
      match root, tail_token with
      | .Variable _ ns ident, .LeftParen => do
          let settings := { settings with pos := ident.pos }
          let nsr := ns.map (fun q => q.2)
          let (e, c) ← rec.parse_fn_call c ident.name false nsr
            settings.level_up
          rec.parse_primary_postfix_loop c e settings
      | expr, .LeftBracket => do
          let (e, c) ← rec.parse_index_chain c expr settings.level_up
          rec.parse_primary_postfix_loop c e settings
      | _, _ => .error ⟨.Panic "unknown postfix operator", settings.pos⟩

/-- parser.rs `parse_unary`. -/
def parse_unary_body (rec : ParserFns) (c : PCtx) (settings : ParseSettings) :
    Except ParseError (Expr × PCtx) :=
  do
    let (token, token_pos) ← peekT c
    let settings := { settings with pos := token_pos }
    let () ← settings.ensure_level_within_max_limit c.state.max_expr_depth
    match token with
    | .UnaryMinus => do
        let (pos, c) ← eat_token c .UnaryMinus
        let (e, c) ← rec.parse_unary c settings.level_up
        match e with
        | .IntegerConstant num ipos =>
            (match ((i64_checked_neg num).map
                (fun k => Expr.IntegerConstant k ipos)).or
                (if c.engine.floatEnabled then
                  some (Expr.FloatConstant (.neg (.ofInt num)) ipos)
                else none) with
            | some r => .ok (r, c)
            | none => .error ⟨.MalformedNumber ("-" ++ toString num), ipos⟩)
        | .FloatConstant x fpos =>
            if c.engine.floatEnabled then
              .ok ((Expr.FloatConstant (.neg x) fpos), c)
            else
              .ok ((Expr.FnCall "-" false none none [.FloatConstant x fpos]
                none pos), c)
        | expr =>
            .ok ((Expr.FnCall "-" false none none [expr] none pos), c)
    | .UnaryPlus => do
        let (pos, c) ← eat_token c .UnaryPlus
        let (e, c) ← rec.parse_unary c settings.level_up
        match e with
        | .IntegerConstant x ipos => .ok ((Expr.IntegerConstant x ipos), c)
        | .FloatConstant x fpos =>
            if c.engine.floatEnabled then .ok ((Expr.FloatConstant x fpos), c)
            else
              .ok ((Expr.FnCall "+" false none none [.FloatConstant x fpos]
                none pos), c)
        | expr =>
            .ok ((Expr.FnCall "+" false none none [expr] none pos), c)
    | .EOF => .error ⟨.UnexpectedEOF, settings.pos⟩
    | _ => rec.parse_primary c settings.level_up

/-- parser.rs `parse_binary_op` (entry: depth check and position reset,
then the climbing loop). -/
def parse_binary_op_body (rec : ParserFns) (c : PCtx) (parent_precedence : Nat)
    (lhs : Expr) (settings : ParseSettings) :
    Except ParseError (Expr × PCtx) :=
  do
    let () ← settings.ensure_level_within_max_limit c.state.max_expr_depth
    let settings := { settings with pos := lhs.position }
    rec.parse_binary_op_loop c parent_precedence lhs settings

/-- The precedence-climbing loop of `parse_binary_op`. -/
def parse_binary_op_loop_body (rec : ParserFns) (c : PCtx) (parent_precedence : Nat)
    (root : Expr) (settings : ParseSettings) :
    Except ParseError (Expr × PCtx) :=
  do
    let (current_op, current_pos) ← peekT c
    let precedence ←
      match current_op with
      | .Custom cs =>
          if ((kw_lookup c.engine.custom_keywords cs).map Option.isSome).getD
              false then
            match kw_lookup c.engine.custom_keywords cs with
            | some (some p) => .ok p
            | _ => .error ⟨.Panic "custom keyword unwrap", current_pos⟩
          else .error ⟨.Reserved cs, current_pos⟩
      | .Reserved cs =>
          if !(is_valid_identifier cs) then
            .error ⟨.UnknownOperator cs, current_pos⟩
          else .ok current_op.precedence
      | _ => .ok current_op.precedence
    let bind_right := current_op.is_bind_right
    if precedence < parent_precedence ∨
        (precedence = parent_precedence ∧ !bind_right) then
      .ok (root, c)
    else do
      let ((op_token, pos), c) ← nextT c
      let (rhs, c) ← rec.parse_unary c settings
      let (next_op, next_pos) ← peekT c
      let next_precedence ←
        match next_op with
        | .Custom cs =>
            if ((kw_lookup c.engine.custom_keywords cs).map Option.isSome).getD
                false then
              match kw_lookup c.engine.custom_keywords cs with
              | some (some p) => .ok p
              | _ => .error ⟨.Panic "custom keyword unwrap", next_pos⟩
            else .error ⟨.Reserved cs, next_pos⟩
        | .Reserved cs =>
            if !(is_valid_identifier cs) then
              .error ⟨.UnknownOperator cs, next_pos⟩
            else .ok next_op.precedence
        | _ => .ok next_op.precedence
      let (rhs, c) ←
        if (precedence = next_precedence ∧ bind_right) ∨
            precedence < next_precedence then
          rec.parse_binary_op c precedence rhs settings
        else .ok (rhs, c)
      let settings := settings.level_up
      let settings := { settings with pos := pos }
      let () ← settings.ensure_level_within_max_limit c.state.max_expr_depth
      let node ← binary_op_node c.engine op_token root rhs pos
      rec.parse_binary_op_loop c parent_precedence node settings

/-- parser.rs `parse_custom_syntax` (named `parse_custom_stx` here): the
scope-delta stack adjustment followed by the segment loop. -/
def parse_custom_stx_body (rec : ParserFns) (c : PCtx) (settings : ParseSettings)
    (key : String) (syn : CustomSyn) (pos : Position) :
    Except ParseError (Expr × PCtx) :=
  do
    let newstack ←
      match custom_stx_adjust syn.scope_delta c.state.stack with
      | some s => .ok s
      | none => .error ⟨.Panic "scope stack underflow", pos⟩
    let c := { c with state := { c.state with stack := newstack } }
    let ((keywords, _, tokens), c) ← rec.parse_custom_stx_loop c settings syn
      [] [key] [key]
    .ok (.Custom keywords syn.func tokens pos, c)

/-- The segment loop of `parse_custom_syntax`. -/
def parse_custom_stx_loop_body (rec : ParserFns) (c : PCtx) (settings : ParseSettings)
    (syn : CustomSyn) (keywords : List Expr) (segments : List String)
    (tokens : List String) :
    Except ParseError ((List Expr × List String × List String) × PCtx) :=
  do
    let (fwd_token, fwd_pos) ← peekT c
    let settings := { settings with pos := fwd_pos }
    let settings := settings.level_up
    let req? ←
      match syn.parse_fn segments fwd_token.synText with
      | .ok r => .ok r
      | .error et => .error ⟨et, settings.pos⟩
    match req? with
    | none => .ok ((keywords, segments, tokens), c)
    | some required =>
        if required = MARKER_IDENT then do
          let ((t, tpos), c) ← nextT c
          match t with
          | .Identifier s =>
              let (name, st) := c.state.get_interned_string s
              let c := { c with state := st }
              let segments := segments ++ [name]
              let (mi, st) := c.state.get_interned_string MARKER_IDENT
              let c := { c with state := st }
              let tokens := tokens ++ [mi]
              let keywords := keywords ++ [Expr.Variable none none ⟨name, tpos⟩]
              rec.parse_custom_stx_loop c settings syn keywords segments tokens
          | .Reserved s =>
              if is_valid_identifier s then .error ⟨.Reserved s, tpos⟩
              else .error ⟨.VariableExpected, tpos⟩
          | _ => .error ⟨.VariableExpected, tpos⟩
        else if required = MARKER_EXPR then do
          let (e, c) ← rec.parse_expr c settings
          let keywords := keywords ++ [e]
          let (kw, st) := c.state.get_interned_string MARKER_EXPR
          let c := { c with state := st }
          rec.parse_custom_stx_loop c settings syn keywords (segments ++ [kw])
            (tokens ++ [kw])
        else if required = MARKER_BLOCK then do
          let (s, c) ← rec.parse_block c settings
          match s with
          | .Block stmts bpos =>
              let keywords := keywords ++ [Expr.Stmt stmts bpos]
              let (kw, st) := c.state.get_interned_string MARKER_BLOCK
              let c := { c with state := st }
              rec.parse_custom_stx_loop c settings syn keywords
                (segments ++ [kw]) (tokens ++ [kw])
          | _ => .error ⟨.Panic "expecting Stmt::Block", settings.pos⟩
        else do
          let ((t, tpos), c) ← nextT c
          if t.synText = required then
            rec.parse_custom_stx_loop c settings syn keywords
              (segments ++ [required]) (tokens ++ [required])
          else
            .error ⟨.MissingToken required
              ("for \x27" ++ segments.headD "" ++ "\x27 expression"), tpos⟩

/-- parser.rs `parse_expr`: custom-syntax dispatch, then unary plus
precedence climbing. -/
def parse_expr_body (rec : ParserFns) (c : PCtx) (settings : ParseSettings) :
    Except ParseError (Expr × PCtx) :=
  do
    let () ← settings.ensure_level_within_max_limit c.state.max_expr_depth
    let (tk, tkpos) ← peekT c
    let settings := { settings with pos := tkpos }
    let key? : Option String :=
      match tk with
      | .Custom k => some k
      | .Reserved k => some k
      | .Identifier k => some k
      | _ => none
    let dispatch? : Option (String × CustomSyn) :=
      if !c.engine.custom_syn.isEmpty then
        match key? with
        | some k => syn_lookup c.engine.custom_syn k
        | none => none
      else none
    match dispatch? with
    | some (key, syn) => do
        let (_, c) ← nextT c
        rec.parse_custom_stx c settings key syn tkpos
    | none => do
        let (lhs, c) ← rec.parse_unary c settings.level_up
        rec.parse_binary_op c 1 lhs settings.level_up

/-- parser.rs `parse_op_assignment_stmt`; of the assignment tokens only
plain `=` is inside the modelled token set. -/
def parse_op_assignment_stmt_body (rec : ParserFns) (c : PCtx) (lhs : Expr)
    (settings : ParseSettings) : Except ParseError (Stmt × PCtx) :=
  do
    let () ← settings.ensure_level_within_max_limit c.state.max_expr_depth
    let (token, token_pos) ← peekT c
    let settings := { settings with pos := token_pos }
    match token with
    | .Equals => do
        let ((_, pos), c) ← nextT c
        let (rhs, c) ← rec.parse_expr c settings.level_up
        let s ← make_assignment_stmt "" c.state lhs rhs pos
        .ok (s, c)
    | _ => .ok (.Expr lhs, c)

/-- parser.rs `parse_expr_stmt`. -/
def parse_expr_stmt_body (rec : ParserFns) (c : PCtx) (settings : ParseSettings) :
    Except ParseError (Stmt × PCtx) :=
  do
    let () ← settings.ensure_level_within_max_limit c.state.max_expr_depth
    let (_, pos) ← peekT c
    let settings := { settings with pos := pos }
    let (expr, c) ← rec.parse_expr c settings.level_up
    rec.parse_op_assignment_stmt c expr settings.level_up

/-- parser.rs `parse_stmt`, restricted to the statement keywords inside
the modelled token set (the doc-comment loop operates on `Token::Comment`,
which is outside it). -/
def parse_stmt_body (rec : ParserFns) (c : PCtx) (settings : ParseSettings) :
    Except ParseError (Stmt × PCtx) :=
  do
    let (token, token_pos) ← peekT c
    if token.is_eof then .ok (.Noop token_pos, c)
    else do
      let settings := { settings with pos := token_pos }
      let () ← settings.ensure_level_within_max_limit c.state.max_expr_depth
      match token with
      | .SemiColon => .ok (.Noop settings.pos, c)
      | .LeftBrace => rec.parse_block c settings.level_up
      | .Switch => rec.parse_switch c settings.level_up
      | .Let => rec.parse_let c .ReadWrite false settings.level_up
      | .Const => rec.parse_let c .ReadOnly false settings.level_up
      | .Import => rec.parse_import c settings.level_up
      | _ => rec.parse_expr_stmt c settings.level_up

/-- parser.rs `parse_block`. -/
def parse_block_body (rec : ParserFns) (c : PCtx) (settings : ParseSettings) :
    Except ParseError (Stmt × PCtx) :=
  do
    let ((t, tpos), c) ← nextT c
    let settings ←
      match t with
      | .LeftBrace => .ok { settings with pos := tpos }
      | _ =>
          .error ⟨.MissingToken Token.LeftBrace.synText
            "to start a statement block", tpos⟩
    let () ← settings.ensure_level_within_max_limit c.state.max_expr_depth
    let prev_entry_stack_len := c.state.entry_stack_len
    let c := { c with state :=
      { c.state with entry_stack_len := c.state.stack.length } }
    let prev_mods_len := c.state.modules.length
    let (statements, c) ← rec.parse_block_loop c settings []
    let st := c.state
    let st := { st with
      stack := st.stack.take st.entry_stack_len,
      entry_stack_len := prev_entry_stack_len,
      modules := st.modules.take prev_mods_len }
    .ok (.Block statements settings.pos, { c with state := st })

/-- The statement loop of `parse_block`. -/
def parse_block_loop_body (rec : ParserFns) (c : PCtx) (settings : ParseSettings)
    (statements : List Stmt) : Except ParseError (List Stmt × PCtx) :=
  do
    let ((matched, _), c) ← match_token c .RightBrace
    if matched then .ok (statements, c)
    else do
      let settings := { settings with is_global := false }
      let (stmt, c) ← rec.parse_stmt c settings.level_up
      if stmt.is_noop then rec.parse_block_loop c settings statements
      else do
        let need_semicolon := !stmt.is_self_terminated
        let statements := statements ++ [stmt]
        let (tok, pos) ← peekT c
        match tok with
        | .RightBrace => do
            let (_, c) ← eat_token c .RightBrace
            .ok (statements, c)
        | .SemiColon =>
            if need_semicolon then do
              let (_, c) ← eat_token c .SemiColon
              rec.parse_block_loop c settings statements
            else rec.parse_block_loop c settings statements
        | _ =>
            if !need_semicolon then rec.parse_block_loop c settings statements
            else
              .error ⟨.MissingToken Token.SemiColon.synText
                "to terminate this statement", pos⟩

/-- parser.rs `parse_let`. -/
def parse_let_body (rec : ParserFns) (c : PCtx) (var_type : AccessMode)
    (is_export : Bool) (settings : ParseSettings) :
    Except ParseError (Stmt × PCtx) :=
  do
    let () ← settings.ensure_level_within_max_limit c.state.max_expr_depth
    let ((_, lpos), c) ← nextT c
    let settings := { settings with pos := lpos }
    let ((ntok, npos), c) ← nextT c
    let (name, name_pos) ←
      match ntok with
      | .Identifier s => .ok (s, npos)
      | .Reserved s =>
          if is_valid_identifier s then .error ⟨.Reserved s, npos⟩
          else .error ⟨.VariableExpected, npos⟩
      | _ => .error ⟨.VariableExpected, npos⟩
    let ((matched, _), c) ← match_token c .Equals
    let (expr?, c) ←
      if matched then do
        let (e, c) ← rec.parse_expr c settings.level_up
        .ok (some e, c)
      else .ok ((none : Option Expr), c)
    match var_type with
    | .ReadWrite =>
        let (iname, st) := c.state.get_interned_string name
        let st := { st with stack := st.stack ++ [(iname, AccessMode.ReadWrite)] }
        .ok (.Let ⟨iname, name_pos⟩ expr? is_export settings.pos,
          { c with state := st })
    | .ReadOnly =>
        let (iname, st) := c.state.get_interned_string name
        let st := { st with stack := st.stack ++ [(iname, AccessMode.ReadOnly)] }
        .ok (.Const ⟨iname, name_pos⟩ expr? is_export settings.pos,
          { c with state := st })

/-- parser.rs `parse_import`. -/
def parse_import_body (rec : ParserFns) (c : PCtx) (settings : ParseSettings) :
    Except ParseError (Stmt × PCtx) :=
  do
    let () ← settings.ensure_level_within_max_limit c.state.max_expr_depth
    let (p, c) ← eat_token c .Import
    let settings := { settings with pos := p }
    let (expr, c) ← rec.parse_expr c settings.level_up
    let ((matched, _), c) ← match_token c .As
    if !matched then .ok (.Import expr none settings.pos, c)
    else do
      let ((ntok, npos), c) ← nextT c
      let (name, name_pos) ←
        match ntok with
        | .Identifier s => .ok (s, npos)
        | .Reserved s =>
            if is_valid_identifier s then .error ⟨.Reserved s, npos⟩
            else .error ⟨.VariableExpected, npos⟩
        | _ => .error ⟨.VariableExpected, npos⟩
      let (iname, st) := c.state.get_interned_string name
      let st := { st with modules := st.modules ++ [iname] }
      .ok (.Import expr (some ⟨iname, name_pos⟩) settings.pos,
        { c with state := st })

/-- parser.rs `parse_anon_fn`. -/
def parse_anon_fn_body (rec : ParserFns) (c : PCtx) (settings : ParseSettings) :
    Except ParseError ((Expr × ScriptFnDef) × PCtx) :=
  do
    let () ← settings.ensure_level_within_max_limit c.state.max_expr_depth
    let ((t0, _), c) ← nextT c
    let (params, c) ←
      if !(t0 = Token.Or) then do
        let ((matched, _), c) ← match_token c .Pipe
        if !matched then rec.parse_anon_params_loop c []
        else .ok (([] : List (String × Position)), c)
      else .ok (([] : List (String × Position)), c)
    let settings := { settings with is_breakable := false }
    let (body, c) ← rec.parse_stmt c settings.level_up
    let externals : List Ident := c.state.externals.map (fun q => ⟨q.1, q.2⟩)
    let params2 : List String :=
      externals.map (fun i => i.name) ++ params.map (fun q => q.1)
    let hash := scriptPosHash c.state.script_hash settings.pos
    let fn_name := FN_ANONYMOUS ++ hex16 hash
    let script : ScriptFnDef :=
      ⟨fn_name, false, params2, [], body, []⟩
    let expr := Expr.FnPointer fn_name settings.pos
    let expr := make_curry_from_externals expr externals settings.pos
    .ok ((expr, script), c)

/-- The parameter loop of `parse_anon_fn`. -/
def parse_anon_params_loop_body (rec : ParserFns) (c : PCtx)
    (params : List (String × Position)) :
    Except ParseError (List (String × Position) × PCtx) :=
  do
    let ((t, tpos), c) ← nextT c
    match t with
    | .Pipe => .ok (params, c)
    | .Identifier s =>
        if params.any (fun q => q.1 = s) then
          .error ⟨.FnDuplicatedParam "" s, tpos⟩
        else do
          let (is, st) := c.state.get_interned_string s
          let st := { st with stack := st.stack ++ [(is, AccessMode.ReadWrite)] }
          let c := { c with state := st }
          let params := params ++ [(is, tpos)]
          let ((t2, t2pos), c) ← nextT c
          match t2 with
          | .Pipe => .ok (params, c)
          | .Comma => rec.parse_anon_params_loop c params
          | _ =>
              .error ⟨.MissingToken Token.Comma.synText
                "to separate the parameters of anonymous function", t2pos⟩
    | _ =>
        .error ⟨.MissingToken Token.Pipe.synText
          "to close the parameters list of anonymous function", tpos⟩

/-- The statement loop of `Engine::parse_global_level`; the per-statement
settings are rebuilt afresh on every iteration. -/
def parse_global_level_loop_body (rec : ParserFns) (c : PCtx)
    (statements : List Stmt) : Except ParseError (List Stmt × PCtx) :=
  do
    let (tk, _) ← peekT c
    if tk.is_eof then .ok (statements, c)
    else do
      let settings : ParseSettings :=
        { allow_if_expr := true, allow_switch_expr := true,
          allow_stmt_expr := true, allow_anonymous_fn := true,
          is_global := true, is_function_scope := false,
          is_breakable := false, level := 0, pos := Position.NONE }
      let (stmt, c) ← rec.parse_stmt c settings
      if stmt.is_noop then rec.parse_global_level_loop c statements
      else do
        let need_semicolon := !stmt.is_self_terminated
        let statements := statements ++ [stmt]
        let (tok, pos) ← peekT c
        match tok with
        | .EOF => .ok (statements, c)
        | .SemiColon =>
            if need_semicolon then do
              let (_, c) ← eat_token c .SemiColon
              rec.parse_global_level_loop c statements
            else rec.parse_global_level_loop c statements
        | _ =>
            if !need_semicolon then rec.parse_global_level_loop c statements
            else
              .error ⟨.MissingToken Token.SemiColon.synText
                "to terminate this statement", pos⟩


/-- The out-of-fuel bottom of the recursion: every procedure reports the
distinguished fuel-exhaustion panic. -/
def parserFnsZero : ParserFns where
  parse_paren_expr := fun _ _ => .error fuelErr
  parse_fn_call := fun _ _ _ _ _ => .error fuelErr
  parse_fn_call_args_loop := fun _ _ _ _ _ _ => .error fuelErr
  parse_index_chain := fun _ _ _ => .error fuelErr
  parse_array_literal := fun _ _ => .error fuelErr
  parse_array_loop := fun _ _ _ => .error fuelErr
  parse_map_literal := fun _ _ => .error fuelErr
  parse_map_loop := fun _ _ _ => .error fuelErr
  parse_switch := fun _ _ => .error fuelErr
  parse_switch_loop := fun _ _ _ _ => .error fuelErr
  parse_primary := fun _ _ => .error fuelErr
  parse_primary_postfix_loop := fun _ _ _ => .error fuelErr
  parse_unary := fun _ _ => .error fuelErr
  parse_binary_op := fun _ _ _ _ => .error fuelErr
  parse_binary_op_loop := fun _ _ _ _ => .error fuelErr
  parse_custom_stx := fun _ _ _ _ _ => .error fuelErr
  parse_custom_stx_loop := fun _ _ _ _ _ _ => .error fuelErr
  parse_expr := fun _ _ => .error fuelErr
  parse_op_assignment_stmt := fun _ _ _ => .error fuelErr
  parse_expr_stmt := fun _ _ => .error fuelErr
  parse_stmt := fun _ _ => .error fuelErr
  parse_block := fun _ _ => .error fuelErr
  parse_block_loop := fun _ _ _ => .error fuelErr
  parse_let := fun _ _ _ _ => .error fuelErr
  parse_import := fun _ _ => .error fuelErr
  parse_anon_fn := fun _ _ => .error fuelErr
  parse_anon_params_loop := fun _ _ => .error fuelErr
  parse_global_level_loop := fun _ _ => .error fuelErr

/-- One step of the open recursion: each procedure body with its recursive
calls going to `rec`. -/
def parserFnsStep (rec : ParserFns) : ParserFns where
  parse_paren_expr := parse_paren_expr_body rec
  parse_fn_call := parse_fn_call_body rec
  parse_fn_call_args_loop := parse_fn_call_args_loop_body rec
  parse_index_chain := parse_index_chain_body rec
  parse_array_literal := parse_array_literal_body rec
  parse_array_loop := parse_array_loop_body rec
  parse_map_literal := parse_map_literal_body rec
  parse_map_loop := parse_map_loop_body rec
  parse_switch := parse_switch_body rec
  parse_switch_loop := parse_switch_loop_body rec
  parse_primary := parse_primary_body rec
  parse_primary_postfix_loop := parse_primary_postfix_loop_body rec
  parse_unary := parse_unary_body rec
  parse_binary_op := parse_binary_op_body rec
  parse_binary_op_loop := parse_binary_op_loop_body rec
  parse_custom_stx := parse_custom_stx_body rec
  parse_custom_stx_loop := parse_custom_stx_loop_body rec
  parse_expr := parse_expr_body rec
  parse_op_assignment_stmt := parse_op_assignment_stmt_body rec
  parse_expr_stmt := parse_expr_stmt_body rec
  parse_stmt := parse_stmt_body rec
  parse_block := parse_block_body rec
  parse_block_loop := parse_block_loop_body rec
  parse_let := parse_let_body rec
  parse_import := parse_import_body rec
  parse_anon_fn := parse_anon_fn_body rec
  parse_anon_params_loop := parse_anon_params_loop_body rec
  parse_global_level_loop := parse_global_level_loop_body rec

/-- The parsing procedures with `fuel` levels of recursion available. -/
def parserFnsAt : Nat → ParserFns
  | 0 => parserFnsZero
  | fuel + 1 => parserFnsStep (parserFnsAt fuel)

/-- parser.rs `parse_expr`, fuel-instantiated. -/
def parse_expr (fuel : Nat) (c : PCtx) (settings : ParseSettings) :
    Except ParseError (Expr × PCtx) :=
  (parserFnsAt fuel).parse_expr c settings

/-- parser.rs `parse_unary`, fuel-instantiated. -/
def parse_unary (fuel : Nat) (c : PCtx) (settings : ParseSettings) :
    Except ParseError (Expr × PCtx) :=
  (parserFnsAt fuel).parse_unary c settings

/-- parser.rs `parse_primary`, fuel-instantiated. -/
def parse_primary (fuel : Nat) (c : PCtx) (settings : ParseSettings) :
    Except ParseError (Expr × PCtx) :=
  (parserFnsAt fuel).parse_primary c settings

/-- parser.rs `parse_binary_op`, fuel-instantiated. -/
def parse_binary_op (fuel : Nat) (c : PCtx) (parent_precedence : Nat)
    (lhs : Expr) (settings : ParseSettings) :
    Except ParseError (Expr × PCtx) :=
  (parserFnsAt fuel).parse_binary_op c parent_precedence lhs settings

/-- parser.rs `parse_array_literal`, fuel-instantiated. -/
def parse_array_literal (fuel : Nat) (c : PCtx) (settings : ParseSettings) :
    Except ParseError (Expr × PCtx) :=
  (parserFnsAt fuel).parse_array_literal c settings

/-- parser.rs `parse_map_literal`, fuel-instantiated. -/
def parse_map_literal (fuel : Nat) (c : PCtx) (settings : ParseSettings) :
    Except ParseError (Expr × PCtx) :=
  (parserFnsAt fuel).parse_map_literal c settings

/-- parser.rs `parse_switch`, fuel-instantiated. -/
def parse_switch (fuel : Nat) (c : PCtx) (settings : ParseSettings) :
    Except ParseError (Stmt × PCtx) :=
  (parserFnsAt fuel).parse_switch c settings

/-- parser.rs `parse_stmt`, fuel-instantiated. -/
def parse_stmt (fuel : Nat) (c : PCtx) (settings : ParseSettings) :
    Except ParseError (Stmt × PCtx) :=
  (parserFnsAt fuel).parse_stmt c settings

/-- parser.rs `parse_custom_syntax` (named `parse_custom_stx`),
fuel-instantiated. -/
def parse_custom_stx (fuel : Nat) (c : PCtx) (settings : ParseSettings)
    (key : String) (syn : CustomSyn) (pos : Position) :
    Except ParseError (Expr × PCtx) :=
  (parserFnsAt fuel).parse_custom_stx c settings key syn pos

/-- parser.rs `parse_let`, fuel-instantiated. -/
def parse_let (fuel : Nat) (c : PCtx) (var_type : AccessMode)
    (is_export : Bool) (settings : ParseSettings) :
    Except ParseError (Stmt × PCtx) :=
  (parserFnsAt fuel).parse_let c var_type is_export settings

/-- parser.rs `parse_import`, fuel-instantiated. -/
def parse_import (fuel : Nat) (c : PCtx) (settings : ParseSettings) :
    Except ParseError (Stmt × PCtx) :=
  (parserFnsAt fuel).parse_import c settings

/-- parser.rs `parse_block`, fuel-instantiated. -/
def parse_block (fuel : Nat) (c : PCtx) (settings : ParseSettings) :
    Except ParseError (Stmt × PCtx) :=
  (parserFnsAt fuel).parse_block c settings

/-- The statement loop of `Engine::parse_global_level`, fuel-instantiated. -/
def parse_global_level_loop (fuel : Nat) (c : PCtx) (statements : List Stmt) :
    Except ParseError (List Stmt × PCtx) :=
  (parserFnsAt fuel).parse_global_level_loop c statements


/-- parser.rs `Engine::parse_global_level`, exposing the final parse
context (state and library) alongside the parsed statements. -/
def Engine.parse_global_level_run (e : Engine) (script_hash : Nat)
    (input : List (Token × Position)) (fuel : Nat) :
    Except ParseError (List Stmt × PCtx) :=
  let state := ParseState.new script_hash e.max_expr_depth
    e.max_function_expr_depth
  parse_global_level_loop fuel ⟨e, input, state, []⟩ []

/-- parser.rs `Engine::parse_global_level` proper: the statements and the
collected script functions. -/
def Engine.parse_global_level (e : Engine) (script_hash : Nat)
    (input : List (Token × Position)) (fuel : Nat) :
    Except ParseError (List Stmt × List ScriptFnDef) :=
  (e.parse_global_level_run script_hash input fuel).map
    (fun r => (r.1, r.2.lib.map (fun q => q.2)))

/-! Fixtures: concrete engines, token streams and states used by the
theorems below. -/

/-- An engine with all limits disabled (0 = unlimited). -/
def engine0 : Engine :=
  { max_array_size := 0, max_map_size := 0, max_expr_depth := 0,
    max_function_expr_depth := 0 }

/-- `engine0` with `max_array_size` = 3. -/
def engine_arr3 : Engine := { engine0 with max_array_size := 3 }

/-- `engine0` with `max_map_size` = 2. -/
def engine_map2 : Engine := { engine0 with max_map_size := 2 }

/-- The per-statement settings of `parse_global_level`. -/
def global_settings : ParseSettings :=
  { allow_if_expr := true, allow_switch_expr := true, allow_stmt_expr := true,
    allow_anonymous_fn := true, is_global := true, is_function_scope := false,
    is_breakable := false, level := 0, pos := Position.NONE }

/-- Token stream of the script `let x = 1;`. -/
def toks_let_x : List (Token × Position) :=
  [(.Let, 1), (.Identifier "x", 2), (.Equals, 3), (.IntegerConstant 1, 4),
   (.SemiColon, 5), (.EOF, 6)]

/-- Token stream of the script `42;`. -/
def toks_int_stmt : List (Token × Position) :=
  [(.IntegerConstant 42, 1), (.SemiColon, 2), (.EOF, 3)]

/-- Token stream of the script `import "m" as foo;`. -/
def toks_import_m : List (Token × Position) :=
  [(.Import, 1), (.StringConstant "m", 2), (.As, 3), (.Identifier "foo", 4),
   (.SemiColon, 5), (.EOF, 6)]

/-- Token stream of the script `[1, 2, 3];` (an array literal with exactly
three elements). -/
def toks_arr_exact : List (Token × Position) :=
  [(.LeftBracket, 1), (.IntegerConstant 1, 2), (.Comma, 3),
   (.IntegerConstant 2, 4), (.Comma, 5), (.IntegerConstant 3, 6),
   (.RightBracket, 7), (.SemiColon, 8), (.EOF, 9)]

/-- Token stream of the script `#\x7ba: 1, b: 2\x7d;` (an object map
literal with exactly two entries). -/
def toks_map_exact : List (Token × Position) :=
  [(.MapStart, 1), (.Identifier "a", 2), (.Colon, 3), (.IntegerConstant 1, 4),
   (.Comma, 5), (.Identifier "b", 6), (.Colon, 7), (.IntegerConstant 2, 8),
   (.RightBrace, 9), (.SemiColon, 10), (.EOF, 11)]

/-- Token stream of the script `#\x7ba: 1, b: 2, c: 3\x7d;` (an object map
literal with three entries). -/
def toks_map_over : List (Token × Position) :=
  [(.MapStart, 1), (.Identifier "a", 2), (.Colon, 3), (.IntegerConstant 1, 4),
   (.Comma, 5), (.Identifier "b", 6), (.Colon, 7), (.IntegerConstant 2, 8),
   (.Comma, 9), (.Identifier "c", 10), (.Colon, 11), (.IntegerConstant 3, 12),
   (.RightBrace, 13), (.SemiColon, 14), (.EOF, 15)]

/-- Token stream of the script
`switch x \x7b _ => 1, 2 => 3, _ => 4 \x7d` — two `_` default arms
separated by a constant case arm. -/
def toks_switch_two_defaults : List (Token × Position) :=
  [(.Switch, 1), (.Identifier "x", 2), (.LeftBrace, 3),
   (.Underscore, 4), (.DoubleArrow, 5), (.IntegerConstant 1, 6), (.Comma, 7),
   (.IntegerConstant 2, 8), (.DoubleArrow, 9), (.IntegerConstant 3, 10),
   (.Comma, 11), (.Underscore, 12), (.DoubleArrow, 13),
   (.IntegerConstant 4, 14), (.RightBrace, 15), (.EOF, 16)]

/-- Token stream of the script `1 < 2;`. -/
def toks_cmp_lt : List (Token × Position) :=
  [(.IntegerConstant 1, 1), (.LessThan, 2), (.IntegerConstant 2, 3),
   (.SemiColon, 4), (.EOF, 5)]

/-- Token stream of the script `1 != 2;`. -/
def toks_cmp_ne : List (Token × Position) :=
  [(.IntegerConstant 1, 1), (.NotEqualsTo, 2), (.IntegerConstant 2, 3),
   (.SemiColon, 4), (.EOF, 5)]

/-- The statements produced by a global-level parse. -/
def global_stmts (e : Engine) (toks : List (Token × Position)) :
    Except ParseError (List Stmt) :=
  (e.parse_global_level_run 0 toks 30).map (fun r => r.1)

/-- The parse state scope stack left behind by a global-level parse. -/
def global_scope_stack (e : Engine) (toks : List (Token × Position)) :
    Except ParseError (List (String × AccessMode)) :=
  (e.parse_global_level_run 0 toks 30).map (fun r => r.2.state.stack)

/-- The parse state module-alias stack left behind by a global-level
parse. -/
def global_modules (e : Engine) (toks : List (Token × Position)) :
    Except ParseError (List String) :=
  (e.parse_global_level_run 0 toks 30).map (fun r => r.2.state.modules)

/-- Parse context for the unary-expression `- <intlit>` with a
configurable float feature flag. -/
def c7_ctx (fe : Bool) (i : Int) : PCtx :=
  ⟨{ engine0 with floatEnabled := fe },
   [(.UnaryMinus, 1), (.IntegerConstant i, 2), (.EOF, 3)],
   ParseState.new 0 0 0, []⟩

/-- The context left after parsing `- <intlit>` in `c7_ctx`. -/
def c7_end_ctx (fe : Bool) : PCtx :=
  ⟨{ engine0 with floatEnabled := fe }, [(.EOF, 3)], ParseState.new 0 0 0, []⟩

/-- A fresh parse state. -/
def st_empty : ParseState := ParseState.new 0 0 0

/-- A parse state whose scope stack holds a single barrier entry. -/
def st_barrier_only : ParseState :=
  { ParseState.new 0 0 0 with stack := [("", .ReadWrite)] }

/-- A parse state with the variable `x` sitting below a barrier entry. -/
def st_below_barrier : ParseState :=
  { ParseState.new 0 0 0 with
    stack := [("x", .ReadWrite), ("", .ReadWrite)] }

/-- Token stream of the script `\x7b let y = 2; \x7d` (a block statement
with a block-local declaration). -/
def toks_block_let : List (Token × Position) :=
  [(.LeftBrace, 1), (.Let, 2), (.Identifier "y", 3), (.Equals, 4),
   (.IntegerConstant 2, 5), (.SemiColon, 6), (.RightBrace, 7), (.EOF, 8)]

/-- Token stream of the script `let x = 1; \x7b let y = 2; \x7d`. -/
def toks_let_block : List (Token × Position) :=
  [(.Let, 1), (.Identifier "x", 2), (.Equals, 3), (.IntegerConstant 1, 4),
   (.SemiColon, 5), (.LeftBrace, 6), (.Let, 7), (.Identifier "y", 8),
   (.Equals, 9), (.IntegerConstant 2, 10), (.SemiColon, 11),
   (.RightBrace, 12), (.EOF, 13)]

/-- Parse context positioned at the declaration `let y`. -/
def let_probe_ctx : PCtx :=
  ⟨engine0, [(.Let, 1), (.Identifier "y", 2), (.EOF, 3)],
   ParseState.new 0 0 0, []⟩

/-- Parse context positioned at the statement `import "m" as foo`. -/
def import_probe_ctx : PCtx :=
  ⟨engine0, [(.Import, 1), (.StringConstant "m", 2), (.As, 3),
   (.Identifier "foo", 4), (.EOF, 5)], ParseState.new 0 0 0, []⟩

/-- The method-call arm of `make_dot_expr` (its last three `FnCall`
cases), as a standalone function: `make_dot_expr` on any non-`Index`
receiver and a `FnCall` right-hand side is definitionally this. -/
def dot_fncall_arm (st : ParseState) (lhs : Expr) (name : String)
    (capture : Bool) (ns : Option NamespaceRef) (hs : Option Nat)
    (args : List Expr) (dv : Option Dyn) (pos op_pos : Position) :
    Except ParseError (Expr × ParseState) :=
  if args.length = 0 ∧ (name = KEYWORD_FN_PTR ∨ name = KEYWORD_EVAL) then
    .error ⟨.ImproperSymbol name
      ("\x27" ++ name ++ "\x27 should not be called in method style. Try "
        ++ name ++ "(...);"), pos⟩
  else if capture then
    .error ⟨.MalformedCapture "method-call style does not support capturing",
      pos⟩
  else
    .ok (.Dot lhs (.FnCall name capture ns hs args dv pos) op_pos, st)

/-- Length of the left spine of `Index` nodes of an expression (the
recursion depth of `make_dot_expr`). -/
def dot_spine_depth : Expr → Nat
  | .Index _ r _ => dot_spine_depth r + 1
  | _ => 0

/-! Helper theorems. -/

/-- Behaviour of the method-call arm of `make_dot_expr`. -/
theorem dot_fncall_arm_spec (st : ParseState) (lhs : Expr) (name : String)
    (capture : Bool) (ns : Option NamespaceRef) (hs : Option Nat)
    (args : List Expr) (dv : Option Dyn) (pos op_pos : Position) :
    (args = [] → (name = KEYWORD_FN_PTR ∨ name = KEYWORD_EVAL) →
      dot_fncall_arm st lhs name capture ns hs args dv pos op_pos =
        .error ⟨.ImproperSymbol name ("\x27" ++ name ++
          "\x27 should not be called in method style. Try " ++ name ++
          "(...);"), pos⟩) ∧
    (capture = true →
      ¬(args = [] ∧ (name = KEYWORD_FN_PTR ∨ name = KEYWORD_EVAL)) →
      dot_fncall_arm st lhs name capture ns hs args dv pos op_pos =
        .error ⟨.MalformedCapture "method-call style does not support capturing",
          pos⟩) ∧
    (capture = false → args ≠ [] →
      (dot_fncall_arm st lhs name capture ns hs args dv pos op_pos).isOk
        = true) := by
  unfold dot_fncall_arm
  refine ⟨fun h1 h2 => ?_, fun hc hni => ?_, fun hc hne => ?_⟩
  · rw [if_pos ⟨by simp [h1], h2⟩]
  · rw [if_neg (fun hcon => hni ⟨List.length_eq_zero.mp hcon.1, hcon.2⟩),
      if_pos (by simp [hc])]
  · rw [if_neg (fun hcon => hne (List.length_eq_zero.mp hcon.1)),
      if_neg (by simp [hc])]
    rfl

/-- `make_dot_expr` on a method-call right-hand side, by induction on the
`Index` spine of the receiver. -/
theorem make_dot_expr_fncall_aux (n : Nat) : ∀ (lhs : Expr),
    dot_spine_depth lhs ≤ n →
    ∀ (st : ParseState) (name : String) (capture : Bool)
    (ns : Option NamespaceRef) (hs : Option Nat) (args : List Expr)
    (dv : Option Dyn) (pos op_pos : Position),
    (args = [] → (name = KEYWORD_FN_PTR ∨ name = KEYWORD_EVAL) →
      make_dot_expr st lhs (.FnCall name capture ns hs args dv pos) op_pos =
        .error ⟨.ImproperSymbol name ("\x27" ++ name ++
          "\x27 should not be called in method style. Try " ++ name ++
          "(...);"), pos⟩) ∧
    (capture = true →
      ¬(args = [] ∧ (name = KEYWORD_FN_PTR ∨ name = KEYWORD_EVAL)) →
      make_dot_expr st lhs (.FnCall name capture ns hs args dv pos) op_pos =
        .error ⟨.MalformedCapture "method-call style does not support capturing",
          pos⟩) ∧
    (capture = false → args ≠ [] →
      (make_dot_expr st lhs (.FnCall name capture ns hs args dv pos)
        op_pos).isOk = true) := by
  induction n with
  | zero =>
      intro lhs hd st name capture ns hs args dv pos op_pos
      cases lhs with
      | Index xl xr p => simp [dot_spine_depth] at hd
      | Unit q => exact dot_fncall_arm_spec st (.Unit q) name capture ns hs args dv pos op_pos
      | BoolConstant b q => exact dot_fncall_arm_spec st (.BoolConstant b q) name capture ns hs args dv pos op_pos
      | IntegerConstant i q => exact dot_fncall_arm_spec st (.IntegerConstant i q) name capture ns hs args dv pos op_pos
      | FloatConstant f q => exact dot_fncall_arm_spec st (.FloatConstant f q) name capture ns hs args dv pos op_pos
      | CharConstant ch q => exact dot_fncall_arm_spec st (.CharConstant ch q) name capture ns hs args dv pos op_pos
      | StringConstant s q => exact dot_fncall_arm_spec st (.StringConstant s q) name capture ns hs args dv pos op_pos
      | Array items q => exact dot_fncall_arm_spec st (.Array items q) name capture ns hs args dv pos op_pos
      | Map items q => exact dot_fncall_arm_spec st (.Map items q) name capture ns hs args dv pos op_pos
      | Variable idx vns ident => exact dot_fncall_arm_spec st (.Variable idx vns ident) name capture ns hs args dv pos op_pos
      | Property g s ident => exact dot_fncall_arm_spec st (.Property g s ident) name capture ns hs args dv pos op_pos
      | FnCall a b d e f g q => exact dot_fncall_arm_spec st (.FnCall a b d e f g q) name capture ns hs args dv pos op_pos
      | FnPointer a q => exact dot_fncall_arm_spec st (.FnPointer a q) name capture ns hs args dv pos op_pos
      | Dot l r q => exact dot_fncall_arm_spec st (.Dot l r q) name capture ns hs args dv pos op_pos
      | And l r q => exact dot_fncall_arm_spec st (.And l r q) name capture ns hs args dv pos op_pos
      | Or l r q => exact dot_fncall_arm_spec st (.Or l r q) name capture ns hs args dv pos op_pos
      | In l r q => exact dot_fncall_arm_spec st (.In l r q) name capture ns hs args dv pos op_pos
      | Custom a b d q => exact dot_fncall_arm_spec st (.Custom a b d q) name capture ns hs args dv pos op_pos
      | Stmt a q => exact dot_fncall_arm_spec st (.Stmt a q) name capture ns hs args dv pos op_pos
  | succ n ih =>
      intro lhs hd st name capture ns hs args dv pos op_pos
      cases lhs with
      | Index xl xr p =>
          have hxr : dot_spine_depth xr ≤ n := by
            simp [dot_spine_depth] at hd; omega
          have ihr := ih xr hxr st name capture ns hs args dv pos op_pos
          have e1 : make_dot_expr st (.Index xl xr p)
              (.FnCall name capture ns hs args dv pos) op_pos =
              (make_dot_expr st xr (.FnCall name capture ns hs args dv pos)
                op_pos).bind
                (fun r => .ok (.Index xl r.1 p, r.2)) := rfl
          refine ⟨fun h1 h2 => ?_, fun hc hni => ?_, fun hc hne => ?_⟩
          · rw [e1, ihr.1 h1 h2]; rfl
          · rw [e1, ihr.2.1 hc hni]; rfl
          · rcases hok : make_dot_expr st xr
                (.FnCall name capture ns hs args dv pos) op_pos with e | v
            · have h3 := ihr.2.2 hc hne
              rw [hok] at h3
              simp [Except.isOk, Except.toBool] at h3
            · rw [e1, hok]
              rfl
      | Unit q => exact dot_fncall_arm_spec st (.Unit q) name capture ns hs args dv pos op_pos
      | BoolConstant b q => exact dot_fncall_arm_spec st (.BoolConstant b q) name capture ns hs args dv pos op_pos
      | IntegerConstant i q => exact dot_fncall_arm_spec st (.IntegerConstant i q) name capture ns hs args dv pos op_pos
      | FloatConstant f q => exact dot_fncall_arm_spec st (.FloatConstant f q) name capture ns hs args dv pos op_pos
      | CharConstant ch q => exact dot_fncall_arm_spec st (.CharConstant ch q) name capture ns hs args dv pos op_pos
      | StringConstant s q => exact dot_fncall_arm_spec st (.StringConstant s q) name capture ns hs args dv pos op_pos
      | Array items q => exact dot_fncall_arm_spec st (.Array items q) name capture ns hs args dv pos op_pos
      | Map items q => exact dot_fncall_arm_spec st (.Map items q) name capture ns hs args dv pos op_pos
      | Variable idx vns ident => exact dot_fncall_arm_spec st (.Variable idx vns ident) name capture ns hs args dv pos op_pos
      | Property g s ident => exact dot_fncall_arm_spec st (.Property g s ident) name capture ns hs args dv pos op_pos
      | FnCall a b d e f g q => exact dot_fncall_arm_spec st (.FnCall a b d e f g q) name capture ns hs args dv pos op_pos
      | FnPointer a q => exact dot_fncall_arm_spec st (.FnPointer a q) name capture ns hs args dv pos op_pos
      | Dot l r q => exact dot_fncall_arm_spec st (.Dot l r q) name capture ns hs args dv pos op_pos
      | And l r q => exact dot_fncall_arm_spec st (.And l r q) name capture ns hs args dv pos op_pos
      | Or l r q => exact dot_fncall_arm_spec st (.Or l r q) name capture ns hs args dv pos op_pos
      | In l r q => exact dot_fncall_arm_spec st (.In l r q) name capture ns hs args dv pos op_pos
      | Custom a b d q => exact dot_fncall_arm_spec st (.Custom a b d q) name capture ns hs args dv pos op_pos
      | Stmt a q => exact dot_fncall_arm_spec st (.Stmt a q) name capture ns hs args dv pos op_pos

/-- Partial evaluation of `- <intlit>` through `parse_unary`: the result
is exactly the integer-fold / float-fallback / malformed-number decision
of the source. -/
theorem parse_unary_neg_intlit (fe : Bool) (i : Int) :
    parse_unary 9 (c7_ctx fe i) global_settings =
      match ((i64_checked_neg i).map (fun k => Expr.IntegerConstant k 2)).or
          (if fe then some (Expr.FloatConstant (.neg (.ofInt i)) 2)
           else none) with
      | some r => .ok (r, c7_end_ctx fe)
      | none => .error ⟨.MalformedNumber ("-" ++ toString i), 2⟩ := rfl

/-- `parse_let` always returns with the newly declared binding appended on
top of the scope stack, and the returned statement is the corresponding
`Let`/`Const` of that binding. -/
theorem parse_let_appends (fuel : Nat) (c : PCtx) (var_type : AccessMode)
    (is_export : Bool) (settings : ParseSettings) (stmt : Stmt) (c' : PCtx)
    (h : parse_let fuel c var_type is_export settings = .ok (stmt, c')) :
    ∃ (i : Ident) (rest : List (String × AccessMode)) (e : Option Expr)
      (p : Position), c'.state.stack = rest ++ [(i.name, var_type)] ∧
      stmt = (match var_type with
        | .ReadWrite => Stmt.Let i e is_export p
        | .ReadOnly => Stmt.Const i e is_export p) := by
  cases fuel with
  | zero =>
      simp [parse_let, parserFnsAt, parserFnsZero, fuelErr] at h
  | succ n =>
      simp only [parse_let, parserFnsAt, parserFnsStep] at h
      unfold parse_let_body at h
      simp only [bind, Except.bind] at h
      cases var_type with
      | ReadWrite =>
          repeat' split at h
          all_goals try exact Except.noConfusion h
          all_goals try contradiction
          all_goals
            (injection h with h
             injection h with hstmt hctx
             subst hstmt
             subst hctx
             exact ⟨_, _, _, _, rfl, rfl⟩)
      | ReadOnly =>
          repeat' split at h
          all_goals try exact Except.noConfusion h
          all_goals try contradiction
          all_goals
            (injection h with h
             injection h with hstmt hctx
             subst hstmt
             subst hctx
             exact ⟨_, _, _, _, rfl, rfl⟩)

/-- Whenever `parse_import` returns an import statement carrying an `as`
alias, that alias sits appended on top of the module-alias stack of the
returned state. -/
theorem parse_import_appends (fuel : Nat) (c : PCtx)
    (settings : ParseSettings) (stmt : Stmt) (c' : PCtx)
    (h : parse_import fuel c settings = .ok (stmt, c')) :
    ∀ (e : Expr) (al : Ident) (p : Position), stmt = .Import e (some al) p →
      ∃ rest, c'.state.modules = rest ++ [al.name] := by
  cases fuel with
  | zero =>
      simp [parse_import, parserFnsAt, parserFnsZero, fuelErr] at h
  | succ n =>
      simp only [parse_import, parserFnsAt, parserFnsStep] at h
      unfold parse_import_body at h
      simp only [bind, Except.bind] at h
      repeat' split at h
      all_goals try exact Except.noConfusion h
      all_goals try contradiction
      all_goals
        (injection h with h
         injection h with hstmt hctx
         subst hstmt
         subst hctx
         intro e al p hst
         first
           | (injection hst with h1 h2 h3
              exact Option.noConfusion h2)
           | (injection hst with h1 h2 h3
              injection h2 with h2
              subst h2
              exact ⟨_, rfl⟩))

/-! Claim theorems. -/

/-- C1 (counterexample): the claim "whenever the reverse scan encounters a
barrier, access_var returns None and no capture is recorded" is false on
the code: on a state whose scope stack is a single barrier entry, looking
up the absent name "y" encounters the barrier and returns None, yet the
name is recorded in the externals set. -/
theorem C1_counterexample :
    (scan_stack "y" st_barrier_only.stack.reverse).1 = true ∧
    (st_barrier_only.access_var "y" 5).1 = none ∧
    (st_barrier_only.access_var "y" 5).2.externals = [("y", 5)] :=
  ⟨rfl, rfl, rfl⟩

/-- C1 (amended): whenever the reverse scan of `access_var` encounters a
barrier, the call returns None; no capture is recorded when the name is
found in the stack (below the barrier); when the name is absent from the
stack altogether, the ordinary capture rule still applies (the name is
recorded when `allow_capture` is set and it is not yet in the externals
map). -/
theorem C1_amended (st : ParseState) (name : String) (pos : Position)
    (hb : (scan_stack name st.stack.reverse).1 = true) :
    (st.access_var name pos).1 = none ∧
    (∀ k, (scan_stack name st.stack.reverse).2 = some k →
      (st.access_var name pos).2.externals = st.externals) ∧
    ((scan_stack name st.stack.reverse).2 = none → st.allow_capture = true →
      st.externals.any (fun p => p.1 = name) = false →
      (st.access_var name pos).2.externals = st.externals ++ [(name, pos)]) := by
  refine ⟨?_, ?_, ?_⟩
  · simp [ParseState.access_var, hb]
  · intro k hk
    cases hac : st.allow_capture <;> simp [ParseState.access_var, hk, hac]
  · intro hk hac hext
    simp [ParseState.access_var, hk, hac, hext]

/-- C1 (witness): on a state holding `x` below a barrier, looking up `x`
encounters the barrier, returns None and records nothing. -/
theorem C1_amended_witness :
    (st_below_barrier.access_var "x" 5).1 = none ∧
    (st_below_barrier.access_var "x" 5).2.externals = [] := by
  have h := C1_amended st_below_barrier "x" 5 rfl
  exact ⟨h.1, h.2.1 1 rfl⟩

/-- C2: behaviour of the literal size limits at the boundary.  An array
literal with exactly `max_array_size` elements is REJECTED with
`LiteralTooLarge` (the check runs at the top of the element loop, before
the closing bracket is seen), while an object-map literal with exactly
`max_map_size` entries is accepted and one more entry is rejected. -/
theorem C2_literal_size_behavior :
    global_stmts engine_arr3 toks_arr_exact =
      .error ⟨.LiteralTooLarge "Size of array literal" 3, 7⟩ ∧
    global_stmts engine_map2 toks_map_exact =
      .ok [Stmt.Expr (Expr.Map [(⟨"a", 2⟩, .IntegerConstant 1 4),
        (⟨"b", 6⟩, .IntegerConstant 2 8)] 1)] ∧
    global_stmts engine_map2 toks_map_over =
      .error ⟨.LiteralTooLarge "Number of properties in object map literal" 2,
        12⟩ :=
  ⟨rfl, rfl, rfl⟩

/-- C3: the switch `switch x \x7b _ => 1, 2 => 3, _ => 4 \x7d`, which
contains two default arms separated by a constant case arm, parses
successfully (no `DuplicatedSwitchCase`), and the first default arm is
silently dropped: the resulting default statement is `4`. -/
theorem C3_duplicate_default_behavior :
    global_stmts engine0 toks_switch_two_defaults =
      .ok [Stmt.Switch (Expr.Variable none none ⟨"x", 2⟩)
        [(dynHash (Dyn.Int 2), Stmt.Expr (Expr.IntegerConstant 3 10))]
        (some (Stmt.Expr (Expr.IntegerConstant 4 14))) 1] := rfl

/-- C4 (counterexample): after the successful top-level parse of
`let x = 1;` the scope stack is NOT empty: it still holds the global
binding `x`. -/
theorem C4_counterexample :
    global_scope_stack engine0 toks_let_x = .ok [("x", .ReadWrite)] ∧
    (.ok [("x", AccessMode.ReadWrite)] :
      Except ParseError (List (String × AccessMode))) ≠ .ok [] := by
  exact ⟨rfl, by simp⟩

/-- C4 (amended): after a successful top-level parse the stacks need not be
empty. Universally, whenever `parse_let` succeeds it returns with the newly
declared binding appended on top of the scope stack (as a `Let` statement
for ReadWrite, a `Const` for ReadOnly), and whenever `parse_import`
succeeds with an `as` alias it returns with that alias appended on top of
the module-alias stack — so global-level declarations remain on the stacks
when their statements complete. Concretely: `let x = 1;` ends with scope
stack `[x]` and no modules; `import "m" as foo;` ends with module stack
`[foo]` and an empty scope stack; block-local bindings are discarded on
block exit: `\x7b let y = 2; \x7d` ends with an empty scope stack and
`let x = 1; \x7b let y = 2; \x7d` with `[x]`; `42;` ends with both stacks
empty. -/
theorem C4_amended :
    (∀ (fuel : Nat) (c : PCtx) (var_type : AccessMode) (is_export : Bool)
      (settings : ParseSettings) (stmt : Stmt) (c' : PCtx)
      (h : parse_let fuel c var_type is_export settings = .ok (stmt, c')),
      ∃ (i : Ident) (rest : List (String × AccessMode)) (e : Option Expr)
        (p : Position), c'.state.stack = rest ++ [(i.name, var_type)] ∧
        stmt = (match var_type with
          | .ReadWrite => Stmt.Let i e is_export p
          | .ReadOnly => Stmt.Const i e is_export p)) ∧
    (∀ (fuel : Nat) (c : PCtx) (settings : ParseSettings) (stmt : Stmt)
      (c' : PCtx), parse_import fuel c settings = .ok (stmt, c') →
      ∀ (e : Expr) (al : Ident) (p : Position),
        stmt = .Import e (some al) p →
        ∃ rest, c'.state.modules = rest ++ [al.name]) ∧
    global_scope_stack engine0 toks_let_x = .ok [("x", .ReadWrite)] ∧
    global_modules engine0 toks_let_x = .ok [] ∧
    global_scope_stack engine0 toks_import_m = .ok [] ∧
    global_modules engine0 toks_import_m = .ok ["foo"] ∧
    global_scope_stack engine0 toks_block_let = .ok [] ∧
    global_scope_stack engine0 toks_let_block = .ok [("x", .ReadWrite)] ∧
    global_scope_stack engine0 toks_int_stmt = .ok [] ∧
    global_modules engine0 toks_int_stmt = .ok [] :=
  ⟨parse_let_appends, parse_import_appends,
   rfl, rfl, rfl, rfl, rfl, rfl, rfl, rfl⟩

/-- C4 (witness): concrete instantiations of the universal conjuncts:
parsing `let y` from a fresh state succeeds and leaves the binding `y` on
top of the scope stack, and parsing `import "m" as foo` succeeds and
leaves `foo` on top of the module-alias stack. -/
theorem C4_amended_witness :
    (∃ stmt c2,
      parse_let 9 let_probe_ctx .ReadWrite false global_settings =
        .ok (stmt, c2) ∧
      ∃ (i : Ident) (rest : List (String × AccessMode)) (e : Option Expr)
        (p : Position),
        c2.state.stack = rest ++ [(i.name, AccessMode.ReadWrite)] ∧
        stmt = Stmt.Let i e false p) ∧
    (∃ stmt c2,
      parse_import 9 import_probe_ctx global_settings = .ok (stmt, c2) ∧
      ∃ rest, c2.state.modules = rest ++ ["foo"]) := by
  constructor
  · refine ⟨_, _, rfl, ?_⟩
    exact C4_amended.1 9 let_probe_ctx .ReadWrite false global_settings _ _
      rfl
  · refine ⟨_, _, rfl, ?_⟩
    exact C4_amended.2.1 9 import_probe_ctx global_settings _ _ rfl
      (.StringConstant "m" 2) ⟨"foo", 4⟩ 1 rfl

/-- C5 (counterexample): the claim "method-style `Fn(...)` with any number
of arguments is rejected" is false on the code: a method-style `Fn` call
with one argument is accepted by `make_dot_expr` as an ordinary
method-call `Dot` node. -/
theorem C5_counterexample :
    make_dot_expr st_empty (.Unit 0)
      (.FnCall "Fn" false none none [.Unit 3] none 1) 2 =
    .ok (.Dot (.Unit 0) (.FnCall "Fn" false none none [.Unit 3] none 1) 2,
      st_empty) := rfl

/-- C5 (amended): `make_dot_expr` rejects a method-style call of the
reserved names `Fn`/`eval` only when the call has zero arguments (with an
`ImproperSymbol` error); a capture-style `func!(...)` after a dot is
rejected with `MalformedCapture` except for zero-argument `Fn!`/`eval!`,
which hit the `ImproperSymbol` arm first; any other method-style call,
including `Fn`/`eval` with at least one argument, is accepted. -/
theorem C5_amended (st : ParseState) (lhs : Expr) (name : String)
    (capture : Bool) (ns : Option NamespaceRef) (hs : Option Nat)
    (args : List Expr) (dv : Option Dyn) (pos op_pos : Position) :
    (args = [] → (name = KEYWORD_FN_PTR ∨ name = KEYWORD_EVAL) →
      make_dot_expr st lhs (.FnCall name capture ns hs args dv pos) op_pos =
        .error ⟨.ImproperSymbol name ("\x27" ++ name ++
          "\x27 should not be called in method style. Try " ++ name ++
          "(...);"), pos⟩) ∧
    (capture = true →
      ¬(args = [] ∧ (name = KEYWORD_FN_PTR ∨ name = KEYWORD_EVAL)) →
      make_dot_expr st lhs (.FnCall name capture ns hs args dv pos) op_pos =
        .error ⟨.MalformedCapture "method-call style does not support capturing",
          pos⟩) ∧
    (capture = false → args ≠ [] →
      (make_dot_expr st lhs (.FnCall name capture ns hs args dv pos)
        op_pos).isOk = true) :=
  make_dot_expr_fncall_aux (dot_spine_depth lhs) lhs (Nat.le_refl _) st name
    capture ns hs args dv pos op_pos

/-- C5 (witness): zero-argument method-style `Fn` is rejected with
`ImproperSymbol`, and a zero-argument capture-style call of an ordinary
name `f` is rejected with `MalformedCapture`. -/
theorem C5_amended_witness :
    make_dot_expr st_empty (.Unit 0)
      (.FnCall "Fn" false none none [] none 1) 2 =
      .error ⟨.ImproperSymbol "Fn" ("\x27" ++ "Fn" ++
        "\x27 should not be called in method style. Try " ++ "Fn" ++
        "(...);"), 1⟩ ∧
    make_dot_expr st_empty (.Unit 0)
      (.FnCall "f" true none none [] none 1) 2 =
      .error ⟨.MalformedCapture "method-call style does not support capturing",
        1⟩ := by
  constructor
  · exact (C5_amended st_empty (.Unit 0) "Fn" false none none [] none 1 2).1
      rfl (Or.inl rfl)
  · exact (C5_amended st_empty (.Unit 0) "f" true none none [] none 1 2).2.1
      rfl (by simp [KEYWORD_FN_PTR, KEYWORD_EVAL])

/-- C6: operator nodes built by `parse_binary_op`: `!=` yields a `FnCall`
with default value `true`; `==`, `<`, `<=`, `>`, `>=` yield `FnCall`s with
default value `false`; the arithmetic, bitwise and shift operators yield
`FnCall`s with no default value.  The final two conjuncts run the full
parser on `1 < 2;` and `1 != 2;`. -/
theorem C6_binary_default_values (e : Engine) (l r : Expr) (p : Position) :
    binary_op_node e .NotEqualsTo l r p =
      .ok (.FnCall "!=" false none none [l, r] (some (.Bool true)) p) ∧
    binary_op_node e .EqualsTo l r p =
      .ok (.FnCall "==" false none none [l, r] (some (.Bool false)) p) ∧
    binary_op_node e .LessThan l r p =
      .ok (.FnCall "<" false none none [l, r] (some (.Bool false)) p) ∧
    binary_op_node e .LessThanEqualsTo l r p =
      .ok (.FnCall "<=" false none none [l, r] (some (.Bool false)) p) ∧
    binary_op_node e .GreaterThan l r p =
      .ok (.FnCall ">" false none none [l, r] (some (.Bool false)) p) ∧
    binary_op_node e .GreaterThanEqualsTo l r p =
      .ok (.FnCall ">=" false none none [l, r] (some (.Bool false)) p) ∧
    binary_op_node e .Plus l r p =
      .ok (.FnCall "+" false none none [l, r] none p) ∧
    binary_op_node e .Minus l r p =
      .ok (.FnCall "-" false none none [l, r] none p) ∧
    binary_op_node e .Multiply l r p =
      .ok (.FnCall "*" false none none [l, r] none p) ∧
    binary_op_node e .Divide l r p =
      .ok (.FnCall "/" false none none [l, r] none p) ∧
    binary_op_node e .Modulo l r p =
      .ok (.FnCall "%" false none none [l, r] none p) ∧
    binary_op_node e .PowerOf l r p =
      .ok (.FnCall "~" false none none [l, r] none p) ∧
    binary_op_node e .LeftShift l r p =
      .ok (.FnCall "<<" false none none [l, r] none p) ∧
    binary_op_node e .RightShift l r p =
      .ok (.FnCall ">>" false none none [l, r] none p) ∧
    binary_op_node e .Ampersand l r p =
      .ok (.FnCall "&" false none none [l, r] none p) ∧
    binary_op_node e .Pipe l r p =
      .ok (.FnCall "|" false none none [l, r] none p) ∧
    binary_op_node e .XOr l r p =
      .ok (.FnCall "^" false none none [l, r] none p) ∧
    global_stmts engine0 toks_cmp_lt =
      .ok [Stmt.Expr (.FnCall "<" false none none
        [.IntegerConstant 1 1, .IntegerConstant 2 3]
        (some (.Bool false)) 2)] ∧
    global_stmts engine0 toks_cmp_ne =
      .ok [Stmt.Expr (.FnCall "!=" false none none
        [.IntegerConstant 1 1, .IntegerConstant 2 3]
        (some (.Bool true)) 2)] :=
  ⟨rfl, rfl, rfl, rfl, rfl, rfl, rfl, rfl, rfl, rfl, rfl, rfl, rfl, rfl, rfl,
   rfl, rfl, rfl, rfl⟩

/-- C7: unary minus on an integer literal folds to the negated integer
constant when the negation is representable in i64; on the minimum
integer it folds to the negated float constant when floats are enabled
and fails with `MalformedNumber` otherwise. -/
theorem C7_unary_minus_folding (fe : Bool) (i : Int)
    (h1 : -(2 ^ 63) ≤ i) (h2 : i < 2 ^ 63) :
    (i ≠ INT_MIN →
      (parse_unary 9 (c7_ctx fe i) global_settings).map (fun r => r.1) =
        .ok (.IntegerConstant (-i) 2)) ∧
    (i = INT_MIN → fe = true →
      (parse_unary 9 (c7_ctx fe i) global_settings).map (fun r => r.1) =
        .ok (.FloatConstant (.neg (.ofInt i)) 2)) ∧
    (i = INT_MIN → fe = false →
      (parse_unary 9 (c7_ctx fe i) global_settings).map (fun r => r.1) =
        .error ⟨.MalformedNumber ("-" ++ toString i), 2⟩) := by
  refine ⟨?_, ?_, ?_⟩
  · intro hne
    have hmin : i ≠ -(2 ^ 63) := by simpa [INT_MIN] using hne
    have hcn : i64_checked_neg i = some (-i) := by
      unfold i64_checked_neg
      rw [if_pos ⟨by omega, by omega⟩]
    rw [parse_unary_neg_intlit, hcn]
    rfl
  · intro hm hfe
    have hm2 : i = -(2 ^ 63) := by simpa [INT_MIN] using hm
    have hcn : i64_checked_neg i = none := by
      unfold i64_checked_neg
      rw [if_neg (by omega)]
    rw [parse_unary_neg_intlit, hcn, hfe]
    rfl
  · intro hm hfe
    have hm2 : i = -(2 ^ 63) := by simpa [INT_MIN] using hm
    have hcn : i64_checked_neg i = none := by
      unfold i64_checked_neg
      rw [if_neg (by omega)]
    rw [parse_unary_neg_intlit, hcn, hfe]
    rfl

/-- C7 (witness): `-5` folds to the integer `-5`; the minimum integer
falls back to the negated float when floats are enabled and to a
`MalformedNumber` error otherwise. -/
theorem C7_unary_minus_folding_witness :
    (parse_unary 9 (c7_ctx true 5) global_settings).map (fun r => r.1) =
      .ok (.IntegerConstant (-5) 2) ∧
    (parse_unary 9 (c7_ctx true (-(2 ^ 63))) global_settings).map
        (fun r => r.1) =
      .ok (.FloatConstant (.neg (.ofInt (-(2 ^ 63)))) 2) ∧
    (parse_unary 9 (c7_ctx false (-(2 ^ 63))) global_settings).map
        (fun r => r.1) =
      .error ⟨.MalformedNumber ("-" ++ toString (-(2 ^ 63) : Int)), 2⟩ := by
  refine ⟨?_, ?_, ?_⟩
  · exact (C7_unary_minus_folding true 5 (by decide) (by decide)).1 (by decide)
  · exact (C7_unary_minus_folding true (-(2 ^ 63)) (by decide) (by decide)).2.1
      rfl rfl
  · exact (C7_unary_minus_folding false (-(2 ^ 63)) (by decide) (by decide)).2.2
      rfl rfl

/-- C8: with a non-zero depth limit, the depth check every production runs
(`ensure_level_within_max_limit`) accepts every nesting level at most the
limit and rejects every level strictly above it with `ExprTooDeep`. -/
theorem C8_depth_check (s : ParseSettings) (limit : Nat) (h : 0 < limit) :
    (s.level ≤ limit →
      s.ensure_level_within_max_limit limit = .ok ()) ∧
    (limit < s.level →
      s.ensure_level_within_max_limit limit =
        .error ⟨.ExprTooDeep, s.pos⟩) := by
  unfold ParseSettings.ensure_level_within_max_limit
  constructor
  · intro hle
    rw [if_neg (by omega), if_neg (by omega)]
  · intro hgt
    rw [if_neg (by omega), if_pos (by omega)]
    rfl

/-- C8 (witness): with limit 10, level 9 (limit minus one) passes and
level 11 (limit plus one) fails with `ExprTooDeep`. -/
theorem C8_depth_check_witness :
    ({ global_settings with level := 9 } :
        ParseSettings).ensure_level_within_max_limit 10 = .ok () ∧
    ({ global_settings with level := 11 } :
        ParseSettings).ensure_level_within_max_limit 10 =
      .error ⟨.ExprTooDeep, Position.NONE⟩ := by
  constructor
  · exact (C8_depth_check { global_settings with level := 9 } 10
      (by decide)).1 (by decide)
  · exact (C8_depth_check { global_settings with level := 11 } 10
      (by decide)).2 (by decide)

/-- C9: the depth check fails with `ExprTooDeep` exactly when the
configured limit is non-zero and the nesting level strictly exceeds it;
in every other situation (in particular whenever the limit is 0) it
succeeds. -/
theorem C9_depth_check_iff (s : ParseSettings) (limit : Nat) :
    (s.ensure_level_within_max_limit limit =
        .error ⟨.ExprTooDeep, s.pos⟩ ↔ (limit ≠ 0 ∧ limit < s.level)) ∧
    (s.ensure_level_within_max_limit limit = .ok () ↔
      ¬(limit ≠ 0 ∧ limit < s.level)) := by
  unfold ParseSettings.ensure_level_within_max_limit
  rcases Nat.eq_zero_or_pos limit with h0 | hpos
  · subst h0; simp
  · rw [if_neg (by omega)]
    by_cases hgt : s.level > limit
    · rw [if_pos hgt]
      constructor
      · simp [ParseErrorType.into_err]
        omega
      · simp
        omega
    · rw [if_neg hgt]
      constructor
      · simp
        omega
      · simp
        omega

/-- C10: the scope-stack adjustment of `parse_custom_syntax` is total (the
checked `usize` subtraction of the truncate branch never underflows, for
every delta and every stack), and a negative delta whose magnitude is at
least the stack length clears the stack to empty. -/
theorem C10_scope_delta_total (delta : Int)
    (stack : List (String × AccessMode)) :
    (custom_stx_adjust delta stack).isSome = true ∧
    (delta < 0 → stack.length ≤ delta.natAbs →
      custom_stx_adjust delta stack = some []) := by
  constructor
  · unfold custom_stx_adjust
    split_ifs with h1 h2 h3 h4 <;> simp_all <;> omega
  · intro hneg hlen
    unfold custom_stx_adjust
    rw [if_neg (by omega), if_pos ⟨hneg, hlen⟩]

/-- C10 (witness): a delta of -3 on a one-entry stack clears the stack
without panicking. -/
theorem C10_scope_delta_total_witness :
    (custom_stx_adjust (-3) [("a", AccessMode.ReadWrite)]).isSome = true ∧
    custom_stx_adjust (-3) [("a", AccessMode.ReadWrite)] = some [] := by
  refine ⟨(C10_scope_delta_total (-3) [("a", AccessMode.ReadWrite)]).1, ?_⟩
  exact (C10_scope_delta_total (-3) [("a", AccessMode.ReadWrite)]).2
    (by decide) (by decide)
